import Mathlib

/-!
Shallow embedding of `libavcodec/libvorbis.c` (the libvorbisenc encoder
adapter) and proofs about its buffer bookkeeping, header packing, option
parsing and error handling.

Modelling conventions:
* Machine integers (`int`, `long`) are modelled as `Int`; sizes that are
  provably non-negative in the source are `Nat`.
* The opaque external library (libvorbisenc) is modelled by a "script" of
  the return values and packets its calls produce during one invocation of
  the adapter; the adapter's own control flow is translated faithfully
  from the C source.
* `sizeof(ogg_packet)` is platform dependent, so it is a parameter `szOp`
  of every definition that uses it (48 on LP64 platforms).
* Floating point quality arithmetic is modelled over `ℚ`; the expressions
  involved are plain literals and divisions copied from the source.
-/

namespace LibVorbis

/-- `#define BUFFER_SIZE (1024 * 64)` from libvorbis.c line 45. -/
def BUFFER_SIZE : Nat := 1024 * 64

/-- `#define OGGVORBIS_FRAME_SIZE 64` from libvorbis.c line 43. -/
def OGGVORBIS_FRAME_SIZE : Nat := 64

/-- An `ogg_packet` as the adapter uses it: the payload bytes that
`op.packet` points at (`op.bytes` is its length) and the granule
position.  The remaining fields (`b_o_s`, `e_o_s`, `packetno`) are never
read by the adapter. -/
structure OggPacket where
  payload : List Nat
  granulepos : Int
  deriving Repr, DecidableEq

/-- `op.bytes`: the length of the packet payload. -/
def OggPacket.bytes (op : OggPacket) : Nat := op.payload.length

/-- The adapter-owned state of `OggVorbisContext`: the staging byte buffer
`uint8_t buffer[BUFFER_SIZE]` is modelled by the list of packets currently
staged in it (oldest first; each occupies `sizeof(ogg_packet)` header
bytes followed by its payload), together with `buffer_index` and `eof`.
The libvorbis-owned fields (`vi`, `vd`, `vb`, `vc`, `op`) live behind the
library scripts. -/
structure OggVorbisContext where
  buffer : List OggPacket
  buffer_index : Int
  eof : Bool
  deriving Repr, DecidableEq

/-- Number of staging-buffer bytes occupied by one staged packet:
`sizeof(ogg_packet) + op.bytes`. -/
def pktBytes (szOp : Nat) (op : OggPacket) : Nat := szOp + op.bytes

/-- Total number of staging-buffer bytes occupied by a list of staged
packets. -/
def stagedSize (szOp : Nat) (l : List OggPacket) : Nat :=
  (l.map (pktBytes szOp)).sum

/-- The staging-buffer bookkeeping invariant: `buffer_index` equals the
total size of the staged packets and does not exceed `BUFFER_SIZE`. -/
def Inv (szOp : Nat) (s : OggVorbisContext) : Prop :=
  s.buffer_index = (stagedSize szOp s.buffer : Int) ∧
  s.buffer_index ≤ (BUFFER_SIZE : Int)

instance (szOp : Nat) (s : OggVorbisContext) : Decidable (Inv szOp s) := by
  unfold Inv; infer_instance

/-! ## Error codes

`OV_*` values are from the external header `vorbis/codec.h`.
The `AVERROR` values are from `libavutil/error.h`, which is part of this
repository but not among the supplied sources. -/

/-- `OV_EFAULT` from vorbis/codec.h. -/
def OV_EFAULT : Int := -129

/-- `OV_EIMPL` from vorbis/codec.h. -/
def OV_EIMPL : Int := -130

/-- `OV_EINVAL` from vorbis/codec.h. -/
def OV_EINVAL : Int := -131

/-- Modelled from the spec: `MKTAG(a,b,c,d)` of libavutil/common.h (not in
src/), the little-endian four-character tag. -/
def MKTAG (a b c d : Nat) : Int :=
  (a : Int) + b * 256 + c * 65536 + d * 16777216

/-- Modelled from the spec: `AVERROR(e)` of libavutil/error.h (not in
src/), negating a POSIX errno value. -/
def AVERROR (e : Int) : Int := -e

/-- POSIX `EINVAL`. -/
def EINVAL : Int := 22

/-- Modelled from the spec: `AVERROR_BUG = FFERRTAG('B','U','G','!')` of
libavutil/error.h (not in src/). -/
def AVERROR_BUG : Int := -(MKTAG 66 85 71 33)

/-- Modelled from the spec: `AVERROR_UNKNOWN = FFERRTAG('U','N','K','N')`
of libavutil/error.h (not in src/). -/
def AVERROR_UNKNOWN : Int := -(MKTAG 85 78 75 78)

/-- `vorbis_error_to_averror` (libvorbis.c lines 74-82): the switch
mapping libvorbis error codes to framework error codes. -/
def vorbis_error_to_averror (ov_err : Int) : Int :=
  if ov_err = OV_EFAULT then AVERROR_BUG
  else if ov_err = OV_EINVAL then AVERROR EINVAL
  else if ov_err = OV_EIMPL then AVERROR EINVAL
  else AVERROR_UNKNOWN

/-! ## Header packing (`oggvorbis_encode_init`, lines 197-216) -/

/-- `xiph_len` (libvorbis.c lines 142-145): bytes needed to store a
buffer of length `l` with its Xiph lacing. -/
def xiph_len (l : Nat) : Nat := 1 + l / 255 + l

/-- Modelled from the spec: `av_xiphlacing` of libavutil (not in src/),
which writes the Xiph lacing of `v` — a run of 255-valued bytes followed
by the remainder byte — and returns the number of bytes written (here,
the bytes themselves). -/
def av_xiphlacing (v : Nat) : List Nat :=
  List.replicate (v / 255) 255 ++ [v % 255]

/-- `memcpy(&buf[off], src, src.length)`: overwrite `src.length` bytes of
`buf` starting at offset `off`. -/
def writeBytes (buf : List Nat) (off : Nat) (src : List Nat) : List Nat :=
  buf.take off ++ src ++ buf.drop (off + src.length)

/-- `avctx->extradata_size` as computed at lines 197-199. -/
def extradata_size (header header_comm header_code : List Nat) : Nat :=
  1 + xiph_len header.length + xiph_len header_comm.length +
      header_code.length

/-- The extradata packing of `oggvorbis_encode_init` lines 200-216: an
`extradata_size`-byte allocation (contents initially arbitrary, modelled
as zero) written through a running `offset`, returning the final buffer
and the final `offset` (the value the assert at line 216 compares with
`extradata_size`). -/
def oggvorbis_extradata (header header_comm header_code : List Nat) :
    List Nat × Nat :=
  let p0 := List.replicate (extradata_size header header_comm header_code) 0
  -- p[0] = 2; offset = 1;
  let p1 := writeBytes p0 0 [2]
  -- offset += av_xiphlacing(&p[offset], header.bytes);
  let lac1 := av_xiphlacing header.length
  let p2 := writeBytes p1 1 lac1
  let o2 := 1 + lac1.length
  -- offset += av_xiphlacing(&p[offset], header_comm.bytes);
  let lac2 := av_xiphlacing header_comm.length
  let p3 := writeBytes p2 o2 lac2
  let o3 := o2 + lac2.length
  -- memcpy(&p[offset], header.packet, header.bytes); offset += header.bytes;
  let p4 := writeBytes p3 o3 header
  let o4 := o3 + header.length
  let p5 := writeBytes p4 o4 header_comm
  let o5 := o4 + header_comm.length
  let p6 := writeBytes p5 o5 header_code
  let o6 := o5 + header_code.length
  (p6, o6)

/-! ## PCM deinterleaving (`oggvorbis_encode_frame`, lines 243-257) -/

/-- The analysis-channel source offset `co` of lines 251-252:
`(channels > 8) ? c : ff_vorbis_encoding_channel_layout_offsets[channels - 1][c]`.
The table `ff_vorbis_encoding_channel_layout_offsets` lives in
libavcodec/vorbis.c, outside the supplied sources, so it is an abstract
parameter `layout`. -/
def channel_offset (layout : Nat → Nat → Nat) (channels c : Nat) : Nat :=
  if channels > 8 then c else layout (channels - 1) c

/-- The deinterleaving double loop of lines 249-255: channel `c` of the
analysis buffer receives `samples` entries, entry `i` being
`audio[i * channels + co]`.  The sample type is abstract because the loop
only copies. -/
def analysis_buffer_fill {α : Type} (audio : Nat → α)
    (channels samples : Nat) (layout : Nat → Nat → Nat) : List (List α) :=
  (List.range channels).map fun c =>
    (List.range samples).map fun i =>
      audio (i * channels + channel_offset layout channels c)

/-! ## The encode-frame state machine (`oggvorbis_encode_frame`, lines 234-311)

One call to `oggvorbis_encode_frame` interacts with libvorbisenc through
`vorbis_analysis_wrote`, `vorbis_analysis_blockout`, `vorbis_analysis`,
`vorbis_bitrate_addblock` and `vorbis_bitrate_flushpacket`.  The
behaviour of the opaque library during one call is a `LibScript`: the
return value of the (at most one) `wrote` call, one `BlockStep` per outer
loop iteration in which `blockout` returned 1, and the final non-1
`blockout` return value. -/

/-- One iteration of the outer retrieval loop in which
`vorbis_analysis_blockout` returned 1: the results of
`vorbis_analysis` and `vorbis_bitrate_addblock`, then the packets
delivered by successive `vorbis_bitrate_flushpacket` calls returning 1,
and the final non-1 `flushpacket` return value. -/
structure BlockStep where
  analysisRet : Int
  addblockRet : Int
  packets : List OggPacket
  flushRet : Int
  deriving Repr, DecidableEq

/-- The library's behaviour during one `oggvorbis_encode_frame` call. -/
structure LibScript where
  wroteRet : Int
  blocks : List BlockStep
  blockoutFinal : Int
  deriving Repr, DecidableEq

/-- Outcome of the retrieval loop. -/
inductive LoopOut where
  | ok
  | overflow
  | err (e : Int)
  deriving Repr, DecidableEq

/-- The inner `flushpacket` loop, lines 273-282: each delivered packet is
checked against `BUFFER_SIZE` and, if it fits, its `ogg_packet` header
and payload are copied into the staging buffer at `buffer_index`.
Returns the staged packets, the new `buffer_index`, the list of
`(offset, length)` byte ranges passed to `memcpy` on `s->buffer`, and
whether the loop completed without hitting the overflow check (`false`
models the `return -1` at line 276, which leaves the packets staged so
far in place and drops the failing one). -/
def stagePackets (szOp : Nat) (staged : List OggPacket) (idx : Int)
    (ops : List OggPacket) :
    List OggPacket × Int × List (Int × Nat) × Bool :=
  match ops with
  | [] => (staged, idx, [], true)
  | op :: rest =>
    if idx + (szOp : Int) + (op.bytes : Int) > (BUFFER_SIZE : Int) then
      (staged, idx, [], false)
    else
      let r := stagePackets szOp (staged ++ [op])
        (idx + (szOp : Int) + (op.bytes : Int)) rest
      (r.1, r.2.1,
       (idx, szOp) :: (idx + (szOp : Int), op.bytes) :: r.2.2.1,
       r.2.2.2)

/-- The outer retrieval loop, lines 266-285: for each `blockout == 1`
iteration, a negative `vorbis_analysis` or `vorbis_bitrate_addblock`
result breaks out with that error; otherwise the delivered packets are
staged (a failed buffer check aborts the call with -1); a negative final
`flushpacket` result breaks out with that error.  When `blockout` stops
returning 1, a negative final `blockout` value is the loop's error. -/
def runBlocks (szOp : Nat) (staged : List OggPacket) (idx : Int)
    (blocks : List BlockStep) (blockoutFinal : Int) :
    List OggPacket × Int × List (Int × Nat) × LoopOut :=
  match blocks with
  | [] =>
    (staged, idx, [],
     if blockoutFinal < 0 then .err blockoutFinal else .ok)
  | b :: rest =>
    if b.analysisRet < 0 then (staged, idx, [], .err b.analysisRet)
    else if b.addblockRet < 0 then (staged, idx, [], .err b.addblockRet)
    else
      let s := stagePackets szOp staged idx b.packets
      if s.2.2.2 = false then (s.1, s.2.1, s.2.2.1, .overflow)
      else if b.flushRet < 0 then (s.1, s.2.1, s.2.2.1, .err b.flushRet)
      else
        let r := runBlocks szOp s.1 s.2.1 rest blockoutFinal
        (r.1, r.2.1, s.2.2.1 ++ r.2.2.1, r.2.2.2)

/-- Result of one `oggvorbis_encode_frame` call: the `int` return value,
the updated adapter state, the bytes copied to the caller's `packets`
output buffer (if any), the value stored into `avctx->coded_frame->pts`
(if the store at lines 297-298 executed), the `(offset, length)` ranges
written into `s->buffer`, and the sample counts passed to
`vorbis_analysis_wrote` during the call. -/
structure FrameResult where
  ret : Int
  state : OggVorbisContext
  output : Option (List Nat)
  pts : Option Int
  writes : List (Int × Nat)
  wroteArgs : List Nat
  deriving Repr, DecidableEq

/-- Lines 265-310: the retrieval loop followed by the output of the
oldest staged packet.  `s2t` models `ff_samples_to_time_base` (internal
helper outside the supplied sources) applied to a granule position. -/
def encodeRetrieve (szOp : Nat) (s2t : Int → Int) (buf_size : Int)
    (script : LibScript) (s : OggVorbisContext) (wargs : List Nat) :
    FrameResult :=
  let r := runBlocks szOp s.buffer s.buffer_index script.blocks
    script.blockoutFinal
  let staged := r.1
  let idx := r.2.1
  let ws := r.2.2.1
  match r.2.2.2 with
  | .overflow => ⟨-1, ⟨staged, idx, s.eof⟩, none, none, ws, wargs⟩
  | .err e =>
    ⟨vorbis_error_to_averror e, ⟨staged, idx, s.eof⟩, none, none, ws, wargs⟩
  | .ok =>
    -- pkt_size = 0; if (s->buffer_index) { ... }
    if idx = 0 then ⟨0, ⟨staged, idx, s.eof⟩, none, none, ws, wargs⟩
    else
      match staged with
      | [] =>
        -- unreachable under the bookkeeping invariant: the C code would
        -- read an ogg_packet header from an empty staging buffer here
        ⟨0, ⟨staged, idx, s.eof⟩, none, none, ws, wargs⟩
      | op2 :: rest =>
        let pkt_size : Int := op2.bytes
        let p := s2t op2.granulepos
        if pkt_size > buf_size then
          ⟨-1, ⟨op2 :: rest, idx, s.eof⟩, none, some p, ws, wargs⟩
        else
          ⟨pkt_size, ⟨rest, idx - (pkt_size + (szOp : Int)), s.eof⟩,
           some op2.payload, some p, ws, wargs⟩

/-- `oggvorbis_encode_frame` (lines 234-311).  `hasData` is whether the
`data` argument is non-NULL; `frameSize` is `avctx->frame_size` (the
sample count sent to `vorbis_analysis_wrote` when data is present).  The
deinterleaving of the samples themselves is `analysis_buffer_fill`. -/
def oggvorbis_encode_frame (szOp : Nat) (s2t : Int → Int)
    (frameSize : Nat) (buf_size : Int) (hasData : Bool)
    (script : LibScript) (s : OggVorbisContext) : FrameResult :=
  if hasData then
    if script.wroteRet < 0 then
      ⟨vorbis_error_to_averror script.wroteRet, s, none, none, [],
       [frameSize]⟩
    else encodeRetrieve szOp s2t buf_size script s [frameSize]
  else
    if s.eof then
      -- s->eof = 1 again (no effect), then fall through to the loop
      encodeRetrieve szOp s2t buf_size script ⟨s.buffer, s.buffer_index, true⟩ []
    else if script.wroteRet < 0 then
      -- the error return happens before `s->eof = 1`
      ⟨vorbis_error_to_averror script.wroteRet, s, none, none, [], [0]⟩
    else
      encodeRetrieve szOp s2t buf_size script ⟨s.buffer, s.buffer_index, true⟩ [0]

/-- All packets a script delivers through `flushpacket`, in order. -/
def allPackets (blocks : List BlockStep) : List OggPacket :=
  blocks.foldr (fun b acc => b.packets ++ acc) []

/-- A script in which no library call reports an error. -/
def ScriptOk (script : LibScript) : Prop :=
  0 ≤ script.wroteRet ∧ 0 ≤ script.blockoutFinal ∧
  ∀ b ∈ script.blocks,
    0 ≤ b.analysisRet ∧ 0 ≤ b.addblockRet ∧ 0 ≤ b.flushRet

instance (script : LibScript) : Decidable (ScriptOk script) := by
  unfold ScriptOk; infer_instance

/-! ## Option parsing (`oggvorbis_init_encoder`, lines 84-139) -/

/-- Modelled from the spec: `FF_QP2LAMBDA` of libavutil (not in src/). -/
def FF_QP2LAMBDA : ℚ := 118

/-- The `{ "b", "0" }` entry of the `defaults` table (lines 66-69): the
codec-level default for `bit_rate`. -/
def default_bit_rate : Int := 0

/-- The fields of `AVCodecContext` that `oggvorbis_init_encoder` reads,
plus the private `iblock` option. -/
structure AVCodecCfg where
  flag_qscale : Bool
  bit_rate : Int
  global_quality : Int
  rc_min_rate : Int
  rc_max_rate : Int
  cutoff : Int
  channels : Int
  sample_rate : Int
  iblock : ℚ
  deriving Repr, DecidableEq

/-- Which libvorbisenc setup call `oggvorbis_init_encoder` issues, with
the arguments it passes (`vbr` carries the quality handed to
`vorbis_encode_setup_vbr`; `managed` carries the
`maxrate, bit_rate, minrate` triple handed to
`vorbis_encode_setup_managed`). -/
inductive SetupMode where
  | vbr (channels sample_rate : Int) (quality : ℚ)
  | managed (channels sample_rate maxrate bitrate minrate : Int)
  deriving Repr, DecidableEq

/-- Return values of the library calls `oggvorbis_init_encoder` may
make. -/
structure InitScript where
  vbrRet : Int
  managedRet : Int
  ctlRateRet : Int
  ctlLowpassRet : Int
  ctlIblockRet : Int
  setupInitRet : Int
  deriving Repr, DecidableEq

/-- Lines 120-138: the cutoff, impulse-block and `setup_init` calls
shared by both branches, each nonzero result going to the `error` label
and through `vorbis_error_to_averror`. -/
def initFinish (cfg : AVCodecCfg) (lib : InitScript) (mode : SetupMode) :
    Int × SetupMode :=
  if cfg.cutoff > 0 ∧ lib.ctlLowpassRet ≠ 0 then
    (vorbis_error_to_averror lib.ctlLowpassRet, mode)
  else if cfg.iblock ≠ 0 ∧ lib.ctlIblockRet ≠ 0 then
    (vorbis_error_to_averror lib.ctlIblockRet, mode)
  else if lib.setupInitRet ≠ 0 then
    (vorbis_error_to_averror lib.setupInitRet, mode)
  else (0, mode)

/-- `oggvorbis_init_encoder` (lines 84-139): returns the `int` result
together with the setup call that was issued.  The float quality
arithmetic of lines 96-102 is over `ℚ`:
`q = global_quality / FF_QP2LAMBDA`, overwritten by 3.0 when
`CODEC_FLAG_QSCALE` is unset, then `q / 10.0` is passed to the vbr
setup. -/
def oggvorbis_init_encoder (cfg : AVCodecCfg) (lib : InitScript) :
    Int × SetupMode :=
  if cfg.flag_qscale ∨ cfg.bit_rate = 0 then
    let q0 : ℚ := (cfg.global_quality : ℚ) / FF_QP2LAMBDA
    let q : ℚ := if ¬cfg.flag_qscale then 3 else q0
    let mode := SetupMode.vbr cfg.channels cfg.sample_rate (q / 10)
    if lib.vbrRet ≠ 0 then (vorbis_error_to_averror lib.vbrRet, mode)
    else initFinish cfg lib mode
  else
    let minrate : Int := if cfg.rc_min_rate > 0 then cfg.rc_min_rate else -1
    let maxrate : Int := if cfg.rc_max_rate > 0 then cfg.rc_max_rate else -1
    let mode := SetupMode.managed cfg.channels cfg.sample_rate maxrate
      cfg.bit_rate minrate
    if lib.managedRet ≠ 0 then (vorbis_error_to_averror lib.managedRet, mode)
    else if minrate = -1 ∧ maxrate = -1 then
      if lib.ctlRateRet ≠ 0 then (vorbis_error_to_averror lib.ctlRateRet, mode)
      else initFinish cfg lib mode
    else initFinish cfg lib mode

/-- The branch-specific setup calls of lines 100-118 all succeeded,
i.e. control reaches the cutoff handling at line 121: in the vbr branch
`vorbis_encode_setup_vbr` returned 0; in the managed branch
`vorbis_encode_setup_managed` returned 0 and, when both rates map to -1
(so the ratemanage ctl of line 116 is issued), that ctl returned 0. -/
def setupPhaseOk (cfg : AVCodecCfg) (lib : InitScript) : Prop :=
  if cfg.flag_qscale ∨ cfg.bit_rate = 0 then lib.vbrRet = 0
  else lib.managedRet = 0 ∧
    (((if cfg.rc_min_rate > 0 then cfg.rc_min_rate else -1) = -1 ∧
      (if cfg.rc_max_rate > 0 then cfg.rc_max_rate else -1) = -1) →
      lib.ctlRateRet = 0)

instance (cfg : AVCodecCfg) (lib : InitScript) :
    Decidable (setupPhaseOk cfg lib) := by
  unfold setupPhaseOk; infer_instance

/-- POSIX `ENOMEM`. -/
def ENOMEM : Int := 12

/-- `oggvorbis_encode_init` (lines 165-232): the chain of checked calls.
A nonzero `oggvorbis_init_encoder` result (already an AVERROR) is
returned unchanged (lines 174-177); nonzero results of
`vorbis_analysis_init`, `vorbis_block_init` and
`vorbis_analysis_headerout` go through `vorbis_error_to_averror`
(lines 178-195); a failed allocation of the extradata or of
`coded_frame` yields `AVERROR(ENOMEM)`; on success the function returns
0 with the packed extradata (on every error path `goto error` runs
`oggvorbis_encode_close`, which frees the extradata, so none is kept). -/
def oggvorbis_encode_init (cfg : AVCodecCfg) (lib : InitScript)
    (analysisInitRet blockInitRet headeroutRet : Int)
    (header header_comm header_code : List Nat)
    (mallocOk codedFrameOk : Bool) : Int × Option (List Nat) :=
  if (oggvorbis_init_encoder cfg lib).1 ≠ 0 then
    ((oggvorbis_init_encoder cfg lib).1, none)
  else if analysisInitRet ≠ 0 then
    (vorbis_error_to_averror analysisInitRet, none)
  else if blockInitRet ≠ 0 then
    (vorbis_error_to_averror blockInitRet, none)
  else if headeroutRet ≠ 0 then
    (vorbis_error_to_averror headeroutRet, none)
  else if mallocOk = false then (AVERROR ENOMEM, none)
  else if codedFrameOk = false then (AVERROR ENOMEM, none)
  else (0, some (oggvorbis_extradata header header_comm header_code).1)

/-! ## Helper lemmas -/

theorem stagedSize_append (szOp : Nat) (l1 l2 : List OggPacket) :
    stagedSize szOp (l1 ++ l2) = stagedSize szOp l1 + stagedSize szOp l2 := by
  unfold stagedSize
  rw [List.map_append, List.sum_append]

theorem stagedSize_cons (szOp : Nat) (op : OggPacket) (l : List OggPacket) :
    stagedSize szOp (op :: l) = (szOp + op.bytes) + stagedSize szOp l := by
  unfold stagedSize pktBytes
  rw [List.map_cons, List.sum_cons]

theorem stagedSize_nil (szOp : Nat) : stagedSize szOp [] = 0 := rfl

theorem stagePackets_writes_bound (szOp : Nat) (ops : List OggPacket) :
    ∀ (staged : List OggPacket) (idx : Int), 0 ≤ idx →
    ∀ w ∈ (stagePackets szOp staged idx ops).2.2.1,
      0 ≤ w.1 ∧ w.1 + (w.2 : Int) ≤ (BUFFER_SIZE : Int) := by
  induction ops with
  | nil =>
    intro staged idx _ w hw
    simp [stagePackets] at hw
  | cons op rest ih =>
    intro staged idx h0 w hw
    by_cases hc : idx + (szOp : Int) + (op.bytes : Int) > (BUFFER_SIZE : Int)
    · simp [stagePackets, hc] at hw
    · simp only [stagePackets, if_neg hc, List.mem_cons] at hw
      rcases hw with h1 | h2 | h3
      · subst h1; constructor <;> omega
      · subst h2; constructor <;> omega
      · exact ih (staged ++ [op]) (idx + (szOp : Int) + (op.bytes : Int))
          (by omega) w h3

theorem stagePackets_idx_nonneg (szOp : Nat) (ops : List OggPacket) :
    ∀ (staged : List OggPacket) (idx : Int), 0 ≤ idx →
    0 ≤ (stagePackets szOp staged idx ops).2.1 := by
  induction ops with
  | nil => intro staged idx h0; simpa [stagePackets] using h0
  | cons op rest ih =>
    intro staged idx h0
    by_cases hc : idx + (szOp : Int) + (op.bytes : Int) > (BUFFER_SIZE : Int)
    · simpa [stagePackets, hc] using h0
    · simp only [stagePackets, if_neg hc]
      exact ih (staged ++ [op]) (idx + (szOp : Int) + (op.bytes : Int))
        (by omega)

theorem stagePackets_general (szOp : Nat) (ops : List OggPacket) :
    ∀ (staged : List OggPacket) (idx : Int), 0 ≤ idx →
    idx ≤ (BUFFER_SIZE : Int) →
    ∃ new,
      (stagePackets szOp staged idx ops).1 = staged ++ new ∧
      (stagePackets szOp staged idx ops).2.1 =
        idx + (stagedSize szOp new : Int) ∧
      (stagePackets szOp staged idx ops).2.1 ≤ (BUFFER_SIZE : Int) := by
  induction ops with
  | nil =>
    intro staged idx h0 hB
    exact ⟨[], by simp [stagePackets, stagedSize_nil],
      by simp [stagePackets, stagedSize_nil], by simpa [stagePackets]⟩
  | cons op rest ih =>
    intro staged idx h0 hB
    by_cases hc : idx + (szOp : Int) + (op.bytes : Int) > (BUFFER_SIZE : Int)
    · exact ⟨[], by simp [stagePackets, hc],
        by simp [stagePackets, hc, stagedSize_nil],
        by simpa [stagePackets, hc]⟩
    · obtain ⟨new, h1, h2, h3⟩ := ih (staged ++ [op])
        (idx + (szOp : Int) + (op.bytes : Int)) (by omega) (by omega)
      refine ⟨op :: new, ?_, ?_, ?_⟩
      · simp only [stagePackets, if_neg hc]
        rw [h1, List.append_assoc]
        rfl
      · simp only [stagePackets, if_neg hc]
        rw [h2, stagedSize_cons]
        push_cast
        ring
      · simpa only [stagePackets, if_neg hc] using h3

theorem stagePackets_success (szOp : Nat) (ops : List OggPacket) :
    ∀ (staged : List OggPacket) (idx : Int),
    idx + (stagedSize szOp ops : Int) ≤ (BUFFER_SIZE : Int) →
    (stagePackets szOp staged idx ops).1 = staged ++ ops ∧
    (stagePackets szOp staged idx ops).2.1 =
      idx + (stagedSize szOp ops : Int) ∧
    (stagePackets szOp staged idx ops).2.2.2 = true := by
  induction ops with
  | nil =>
    intro staged idx _
    simp [stagePackets, stagedSize_nil]
  | cons op rest ih =>
    intro staged idx hfit
    have hsz : stagedSize szOp (op :: rest) =
        (szOp + op.bytes) + stagedSize szOp rest := stagedSize_cons ..
    have hc : ¬ idx + (szOp : Int) + (op.bytes : Int) > (BUFFER_SIZE : Int) := by
      rw [hsz] at hfit; push_cast at hfit ⊢; omega
    obtain ⟨h1, h2, h3⟩ := ih (staged ++ [op])
      (idx + (szOp : Int) + (op.bytes : Int))
      (by rw [hsz] at hfit; push_cast at hfit ⊢; omega)
    refine ⟨?_, ?_, ?_⟩
    · simp only [stagePackets, if_neg hc]
      rw [h1, List.append_assoc]
      rfl
    · simp only [stagePackets, if_neg hc]
      rw [h2, hsz]
      push_cast
      ring
    · simpa only [stagePackets, if_neg hc] using h3

theorem allPackets_nil : allPackets [] = [] := rfl

theorem allPackets_cons (b : BlockStep) (rest : List BlockStep) :
    allPackets (b :: rest) = b.packets ++ allPackets rest := rfl

theorem runBlocks_general (szOp : Nat) (bf : Int) (blocks : List BlockStep) :
    ∀ (staged : List OggPacket) (idx : Int), 0 ≤ idx →
    idx ≤ (BUFFER_SIZE : Int) →
    ∃ new,
      (runBlocks szOp staged idx blocks bf).1 = staged ++ new ∧
      (runBlocks szOp staged idx blocks bf).2.1 =
        idx + (stagedSize szOp new : Int) ∧
      (runBlocks szOp staged idx blocks bf).2.1 ≤ (BUFFER_SIZE : Int) := by
  induction blocks with
  | nil =>
    intro staged idx h0 hB
    exact ⟨[], by simp [runBlocks], by simp [runBlocks, stagedSize_nil],
      by simpa [runBlocks]⟩
  | cons b rest ih =>
    intro staged idx h0 hB
    by_cases ha : b.analysisRet < 0
    · exact ⟨[], by simp [runBlocks, ha],
        by simp [runBlocks, ha, stagedSize_nil], by simpa [runBlocks, ha]⟩
    by_cases hd : b.addblockRet < 0
    · exact ⟨[], by simp [runBlocks, ha, hd],
        by simp [runBlocks, ha, hd, stagedSize_nil],
        by simpa [runBlocks, ha, hd]⟩
    obtain ⟨new1, h1, h2, h3⟩ := stagePackets_general szOp b.packets staged idx h0 hB
    have h0s : 0 ≤ (stagePackets szOp staged idx b.packets).2.1 :=
      stagePackets_idx_nonneg szOp b.packets staged idx h0
    by_cases hov : (stagePackets szOp staged idx b.packets).2.2.2 = false
    · exact ⟨new1, by simp [runBlocks, ha, hd, hov, h1],
        by simp [runBlocks, ha, hd, hov, h2], by simpa [runBlocks, ha, hd, hov]⟩
    by_cases hf : b.flushRet < 0
    · exact ⟨new1, by simp [runBlocks, ha, hd, hov, hf, h1],
        by simp [runBlocks, ha, hd, hov, hf, h2],
        by simpa [runBlocks, ha, hd, hov, hf]⟩
    obtain ⟨new2, g1, g2, g3⟩ := ih (stagePackets szOp staged idx b.packets).1
      (stagePackets szOp staged idx b.packets).2.1 h0s h3
    refine ⟨new1 ++ new2, ?_, ?_, ?_⟩
    · simp only [runBlocks, if_neg ha, if_neg hd, if_neg hov, if_neg hf]
      rw [g1, h1, List.append_assoc]
    · simp only [runBlocks, if_neg ha, if_neg hd, if_neg hov, if_neg hf]
      rw [g2, h2, stagedSize_append]
      push_cast
      ring
    · simpa only [runBlocks, if_neg ha, if_neg hd, if_neg hov, if_neg hf] using g3

theorem runBlocks_writes_bound (szOp : Nat) (bf : Int)
    (blocks : List BlockStep) :
    ∀ (staged : List OggPacket) (idx : Int), 0 ≤ idx →
    ∀ w ∈ (runBlocks szOp staged idx blocks bf).2.2.1,
      0 ≤ w.1 ∧ w.1 + (w.2 : Int) ≤ (BUFFER_SIZE : Int) := by
  induction blocks with
  | nil =>
    intro staged idx _ w hw
    simp [runBlocks] at hw
  | cons b rest ih =>
    intro staged idx h0 w hw
    by_cases ha : b.analysisRet < 0
    · simp [runBlocks, ha] at hw
    by_cases hd : b.addblockRet < 0
    · simp [runBlocks, ha, hd] at hw
    have hsw := stagePackets_writes_bound szOp b.packets staged idx h0
    have h0s : 0 ≤ (stagePackets szOp staged idx b.packets).2.1 :=
      stagePackets_idx_nonneg szOp b.packets staged idx h0
    by_cases hov : (stagePackets szOp staged idx b.packets).2.2.2 = false
    · simp only [runBlocks, if_neg ha, if_neg hd, if_pos hov] at hw
      exact hsw w hw
    by_cases hf : b.flushRet < 0
    · simp only [runBlocks, if_neg ha, if_neg hd, if_neg hov, if_pos hf] at hw
      exact hsw w hw
    simp only [runBlocks, if_neg ha, if_neg hd, if_neg hov, if_neg hf,
      List.mem_append] at hw
    rcases hw with hw | hw
    · exact hsw w hw
    · exact ih (stagePackets szOp staged idx b.packets).1
        (stagePackets szOp staged idx b.packets).2.1 h0s w hw

theorem runBlocks_ok (szOp : Nat) (bf : Int) (blocks : List BlockStep)
    (hbf : 0 ≤ bf)
    (hb : ∀ b ∈ blocks,
      0 ≤ b.analysisRet ∧ 0 ≤ b.addblockRet ∧ 0 ≤ b.flushRet) :
    ∀ (staged : List OggPacket) (idx : Int),
    idx + (stagedSize szOp (allPackets blocks) : Int) ≤ (BUFFER_SIZE : Int) →
    (runBlocks szOp staged idx blocks bf).1 = staged ++ allPackets blocks ∧
    (runBlocks szOp staged idx blocks bf).2.1 =
      idx + (stagedSize szOp (allPackets blocks) : Int) ∧
    (runBlocks szOp staged idx blocks bf).2.2.2 = .ok := by
  induction blocks with
  | nil =>
    intro staged idx _
    have : ¬ bf < 0 := not_lt.mpr hbf
    simp [runBlocks, allPackets_nil, stagedSize_nil, this]
  | cons b rest ih =>
    intro staged idx hfit
    obtain ⟨hba, hbd, hbfl⟩ := hb b (List.mem_cons_self b rest)
    have ha : ¬ b.analysisRet < 0 := not_lt.mpr hba
    have hd : ¬ b.addblockRet < 0 := not_lt.mpr hbd
    have hf : ¬ b.flushRet < 0 := not_lt.mpr hbfl
    rw [allPackets_cons, stagedSize_append] at hfit
    obtain ⟨h1, h2, h3⟩ := stagePackets_success szOp b.packets staged idx
      (by push_cast at hfit ⊢; omega)
    have hov : ¬ (stagePackets szOp staged idx b.packets).2.2.2 = false := by
      rw [h3]; simp
    obtain ⟨g1, g2, g3⟩ := ih (fun x hx => hb x (List.mem_cons_of_mem b hx))
      (stagePackets szOp staged idx b.packets).1
      (stagePackets szOp staged idx b.packets).2.1
      (by rw [h2]; push_cast at hfit ⊢; omega)
    refine ⟨?_, ?_, ?_⟩
    · simp only [runBlocks, if_neg ha, if_neg hd, if_neg hov, if_neg hf]
      rw [g1, h1, allPackets_cons, List.append_assoc]
    · simp only [runBlocks, if_neg ha, if_neg hd, if_neg hov, if_neg hf]
      rw [g2, h2, allPackets_cons, stagedSize_append]
      push_cast
      ring
    · simpa only [runBlocks, if_neg ha, if_neg hd, if_neg hov, if_neg hf]
        using g3

/-! Branch characterizations of `encodeRetrieve`, keyed on the loop
outcome recorded by `runBlocks`. -/

theorem encodeRetrieve_err (szOp : Nat) (s2t : Int → Int) (buf_size : Int)
    (script : LibScript) (s : OggVorbisContext) (wargs : List Nat) (e : Int)
    (h : (runBlocks szOp s.buffer s.buffer_index script.blocks
        script.blockoutFinal).2.2.2 = .err e) :
    encodeRetrieve szOp s2t buf_size script s wargs =
      ⟨vorbis_error_to_averror e,
       ⟨(runBlocks szOp s.buffer s.buffer_index script.blocks
           script.blockoutFinal).1,
        (runBlocks szOp s.buffer s.buffer_index script.blocks
           script.blockoutFinal).2.1, s.eof⟩,
       none, none,
       (runBlocks szOp s.buffer s.buffer_index script.blocks
          script.blockoutFinal).2.2.1, wargs⟩ := by
  simp only [encodeRetrieve, h]

theorem encodeRetrieve_overflow (szOp : Nat) (s2t : Int → Int)
    (buf_size : Int) (script : LibScript) (s : OggVorbisContext)
    (wargs : List Nat)
    (h : (runBlocks szOp s.buffer s.buffer_index script.blocks
        script.blockoutFinal).2.2.2 = .overflow) :
    encodeRetrieve szOp s2t buf_size script s wargs =
      ⟨-1,
       ⟨(runBlocks szOp s.buffer s.buffer_index script.blocks
           script.blockoutFinal).1,
        (runBlocks szOp s.buffer s.buffer_index script.blocks
           script.blockoutFinal).2.1, s.eof⟩,
       none, none,
       (runBlocks szOp s.buffer s.buffer_index script.blocks
          script.blockoutFinal).2.2.1, wargs⟩ := by
  simp only [encodeRetrieve, h]

theorem encodeRetrieve_ok_empty (szOp : Nat) (s2t : Int → Int)
    (buf_size : Int) (script : LibScript) (s : OggVorbisContext)
    (wargs : List Nat)
    (h : (runBlocks szOp s.buffer s.buffer_index script.blocks
        script.blockoutFinal).2.2.2 = .ok)
    (h0 : (runBlocks szOp s.buffer s.buffer_index script.blocks
        script.blockoutFinal).2.1 = 0) :
    encodeRetrieve szOp s2t buf_size script s wargs =
      ⟨0,
       ⟨(runBlocks szOp s.buffer s.buffer_index script.blocks
           script.blockoutFinal).1, 0, s.eof⟩,
       none, none,
       (runBlocks szOp s.buffer s.buffer_index script.blocks
          script.blockoutFinal).2.2.1, wargs⟩ := by
  simp only [encodeRetrieve, h, h0, if_pos]

theorem encodeRetrieve_ok_big (szOp : Nat) (s2t : Int → Int)
    (buf_size : Int) (script : LibScript) (s : OggVorbisContext)
    (wargs : List Nat) (op2 : OggPacket) (rest : List OggPacket)
    (h : (runBlocks szOp s.buffer s.buffer_index script.blocks
        script.blockoutFinal).2.2.2 = .ok)
    (h0 : (runBlocks szOp s.buffer s.buffer_index script.blocks
        script.blockoutFinal).2.1 ≠ 0)
    (hst : (runBlocks szOp s.buffer s.buffer_index script.blocks
        script.blockoutFinal).1 = op2 :: rest)
    (hbig : (op2.bytes : Int) > buf_size) :
    encodeRetrieve szOp s2t buf_size script s wargs =
      ⟨-1,
       ⟨op2 :: rest,
        (runBlocks szOp s.buffer s.buffer_index script.blocks
           script.blockoutFinal).2.1, s.eof⟩,
       none, some (s2t op2.granulepos),
       (runBlocks szOp s.buffer s.buffer_index script.blocks
          script.blockoutFinal).2.2.1, wargs⟩ := by
  simp only [encodeRetrieve, h, h0, if_neg, hst, if_pos hbig]
  simp

theorem encodeRetrieve_ok_fit (szOp : Nat) (s2t : Int → Int)
    (buf_size : Int) (script : LibScript) (s : OggVorbisContext)
    (wargs : List Nat) (op2 : OggPacket) (rest : List OggPacket)
    (h : (runBlocks szOp s.buffer s.buffer_index script.blocks
        script.blockoutFinal).2.2.2 = .ok)
    (h0 : (runBlocks szOp s.buffer s.buffer_index script.blocks
        script.blockoutFinal).2.1 ≠ 0)
    (hst : (runBlocks szOp s.buffer s.buffer_index script.blocks
        script.blockoutFinal).1 = op2 :: rest)
    (hfit : ¬ (op2.bytes : Int) > buf_size) :
    encodeRetrieve szOp s2t buf_size script s wargs =
      ⟨(op2.bytes : Int),
       ⟨rest,
        (runBlocks szOp s.buffer s.buffer_index script.blocks
           script.blockoutFinal).2.1 - ((op2.bytes : Int) + (szOp : Int)),
        s.eof⟩,
       some op2.payload, some (s2t op2.granulepos),
       (runBlocks szOp s.buffer s.buffer_index script.blocks
          script.blockoutFinal).2.2.1, wargs⟩ := by
  simp only [encodeRetrieve, h, h0, if_neg, hst, if_neg hfit]
  simp

/-- Effect of the retrieval-plus-output phase on the staged packets:
the invariant is preserved, the newly flushed packets are appended at the
back, and at most the oldest packet is removed (when one is, its payload
is the emitted output and `buffer_index` drops by exactly its footprint). -/
theorem encodeRetrieve_inv (szOp : Nat) (s2t : Int → Int) (buf_size : Int)
    (script : LibScript) (s : OggVorbisContext) (wargs : List Nat)
    (h : Inv szOp s) :
    Inv szOp (encodeRetrieve szOp s2t buf_size script s wargs).state ∧
    ∃ new,
      ((encodeRetrieve szOp s2t buf_size script s wargs).state.buffer =
          s.buffer ++ new ∧
       (encodeRetrieve szOp s2t buf_size script s wargs).state.buffer_index =
          s.buffer_index + (stagedSize szOp new : Int)) ∨
      (∃ op rest, s.buffer ++ new = op :: rest ∧
        (encodeRetrieve szOp s2t buf_size script s wargs).state.buffer =
          rest ∧
        (encodeRetrieve szOp s2t buf_size script s wargs).state.buffer_index =
          s.buffer_index + (stagedSize szOp new : Int) -
            ((szOp : Int) + (op.bytes : Int)) ∧
        (encodeRetrieve szOp s2t buf_size script s wargs).output =
          some op.payload) := by
  obtain ⟨hIdx, hLe⟩ := h
  have h0 : 0 ≤ s.buffer_index := by
    rw [hIdx]; exact Int.natCast_nonneg _
  obtain ⟨new, g1, g2, g3⟩ := runBlocks_general szOp script.blockoutFinal
    script.blocks s.buffer s.buffer_index h0 hLe
  have gsz : (runBlocks szOp s.buffer s.buffer_index script.blocks
      script.blockoutFinal).2.1 =
      (stagedSize szOp (runBlocks szOp s.buffer s.buffer_index script.blocks
        script.blockoutFinal).1 : Int) := by
    rw [g1, g2, hIdx, stagedSize_append]
    push_cast
    ring
  cases hout : (runBlocks szOp s.buffer s.buffer_index script.blocks
      script.blockoutFinal).2.2.2 with
  | overflow =>
    rw [encodeRetrieve_overflow szOp s2t buf_size script s wargs hout]
    exact ⟨⟨gsz, g3⟩, new, Or.inl ⟨g1, g2⟩⟩
  | err e =>
    rw [encodeRetrieve_err szOp s2t buf_size script s wargs e hout]
    exact ⟨⟨gsz, g3⟩, new, Or.inl ⟨g1, g2⟩⟩
  | ok =>
    by_cases hz : (runBlocks szOp s.buffer s.buffer_index script.blocks
        script.blockoutFinal).2.1 = 0
    · rw [encodeRetrieve_ok_empty szOp s2t buf_size script s wargs hout hz]
      refine ⟨⟨by rw [← hz]; exact gsz, by rw [← hz]; exact g3⟩,
        new, Or.inl ⟨g1, by rw [← hz]; exact g2⟩⟩
    · cases hst : (runBlocks szOp s.buffer s.buffer_index script.blocks
          script.blockoutFinal).1 with
      | nil =>
        exfalso
        apply hz
        rw [gsz, hst, stagedSize_nil]
        rfl
      | cons op2 rest =>
        have hsz2 : (runBlocks szOp s.buffer s.buffer_index script.blocks
            script.blockoutFinal).2.1 =
            ((szOp + op2.bytes : Nat) : Int) + (stagedSize szOp rest : Int) := by
          rw [gsz, hst, stagedSize_cons]
          push_cast
          ring
        by_cases hbig : (op2.bytes : Int) > buf_size
        · rw [encodeRetrieve_ok_big szOp s2t buf_size script s wargs op2 rest
            hout hz hst hbig]
          exact ⟨⟨by rw [← hst]; exact gsz, g3⟩,
            new, Or.inl ⟨by rw [← hst]; exact g1, g2⟩⟩
        · rw [encodeRetrieve_ok_fit szOp s2t buf_size script s wargs op2 rest
            hout hz hst hbig]
          refine ⟨⟨?_, ?_⟩, new, Or.inr ⟨op2, rest, ?_, rfl, ?_, rfl⟩⟩
          · rw [hsz2]; push_cast; ring
          · have hnn : (0 : Int) ≤ (op2.bytes : Int) + (szOp : Int) := by
              positivity
            show (runBlocks szOp s.buffer s.buffer_index script.blocks
                script.blockoutFinal).2.1 -
                ((op2.bytes : Int) + (szOp : Int)) ≤ (BUFFER_SIZE : Int)
            omega
          · rw [← g1, hst]
          · rw [g2]; push_cast; ring
/-! Header-packing lemmas. -/

theorem av_xiphlacing_length (v : Nat) :
    (av_xiphlacing v).length = 1 + v / 255 := by
  simp [av_xiphlacing]
  omega

theorem writeBytes_fill (done : List Nat) (r n : Nat) (src : List Nat)
    (hn : n = done.length) :
    writeBytes (done ++ List.replicate r 0) n src =
    done ++ src ++ List.replicate (r - src.length) 0 := by
  subst hn
  unfold writeBytes
  rw [List.take_left, List.drop_append, List.drop_replicate,
    List.append_assoc]

/-- The sequence of offset writes of lines 206-215 produces exactly the
concatenation of the marker byte, the two lacings and the three header
packets, and the final offset is the total size. -/
theorem oggvorbis_extradata_eq (h hc k : List Nat) :
    (oggvorbis_extradata h hc k).1 =
      [2] ++ av_xiphlacing h.length ++ av_xiphlacing hc.length ++
        h ++ hc ++ k ∧
    (oggvorbis_extradata h hc k).2 = extradata_size h hc k := by
  have lL1 : (av_xiphlacing h.length).length = 1 + h.length / 255 :=
    av_xiphlacing_length _
  have lL2 : (av_xiphlacing hc.length).length = 1 + hc.length / 255 :=
    av_xiphlacing_length _
  have hT : extradata_size h hc k =
      1 + (av_xiphlacing h.length).length + (av_xiphlacing hc.length).length +
        h.length + hc.length + k.length := by
    rw [lL1, lL2]
    unfold extradata_size xiph_len
    omega
  have e1 : writeBytes (List.replicate (extradata_size h hc k) 0) 0 [2] =
      [2] ++ List.replicate (extradata_size h hc k - 1) 0 := by
    have h1 := writeBytes_fill [] (extradata_size h hc k) 0 [2] rfl
    simpa using h1
  have e2 : writeBytes ([2] ++
        List.replicate (extradata_size h hc k - 1) 0) 1
        (av_xiphlacing h.length) =
      ([2] ++ av_xiphlacing h.length) ++
        List.replicate
          (extradata_size h hc k - 1 - (av_xiphlacing h.length).length) 0 :=
    writeBytes_fill [2] _ 1 _ rfl
  have e3 : writeBytes (([2] ++ av_xiphlacing h.length) ++
        List.replicate
          (extradata_size h hc k - 1 - (av_xiphlacing h.length).length) 0)
        (1 + (av_xiphlacing h.length).length) (av_xiphlacing hc.length) =
      (([2] ++ av_xiphlacing h.length) ++ av_xiphlacing hc.length) ++
        List.replicate
          (extradata_size h hc k - 1 - (av_xiphlacing h.length).length -
            (av_xiphlacing hc.length).length) 0 :=
    writeBytes_fill ([2] ++ av_xiphlacing h.length) _ _ _
      (by simp [List.length_append]; omega)
  have e4 : writeBytes ((([2] ++ av_xiphlacing h.length) ++
          av_xiphlacing hc.length) ++
        List.replicate
          (extradata_size h hc k - 1 - (av_xiphlacing h.length).length -
            (av_xiphlacing hc.length).length) 0)
        (1 + (av_xiphlacing h.length).length +
          (av_xiphlacing hc.length).length) h =
      ((([2] ++ av_xiphlacing h.length) ++ av_xiphlacing hc.length) ++ h) ++
        List.replicate
          (extradata_size h hc k - 1 - (av_xiphlacing h.length).length -
            (av_xiphlacing hc.length).length - h.length) 0 :=
    writeBytes_fill (([2] ++ av_xiphlacing h.length) ++
        av_xiphlacing hc.length) _ _ _
      (by simp [List.length_append]; omega)
  have e5 : writeBytes (((([2] ++ av_xiphlacing h.length) ++
          av_xiphlacing hc.length) ++ h) ++
        List.replicate
          (extradata_size h hc k - 1 - (av_xiphlacing h.length).length -
            (av_xiphlacing hc.length).length - h.length) 0)
        (1 + (av_xiphlacing h.length).length +
          (av_xiphlacing hc.length).length + h.length) hc =
      (((([2] ++ av_xiphlacing h.length) ++ av_xiphlacing hc.length) ++ h) ++
          hc) ++
        List.replicate
          (extradata_size h hc k - 1 - (av_xiphlacing h.length).length -
            (av_xiphlacing hc.length).length - h.length - hc.length) 0 :=
    writeBytes_fill ((([2] ++ av_xiphlacing h.length) ++
        av_xiphlacing hc.length) ++ h) _ _ _
      (by simp [List.length_append]; omega)
  have e6 : writeBytes ((((([2] ++ av_xiphlacing h.length) ++
          av_xiphlacing hc.length) ++ h) ++ hc) ++
        List.replicate
          (extradata_size h hc k - 1 - (av_xiphlacing h.length).length -
            (av_xiphlacing hc.length).length - h.length - hc.length) 0)
        (1 + (av_xiphlacing h.length).length +
          (av_xiphlacing hc.length).length + h.length + hc.length) k =
      ((((([2] ++ av_xiphlacing h.length) ++ av_xiphlacing hc.length) ++ h) ++
          hc) ++ k) ++
        List.replicate
          (extradata_size h hc k - 1 - (av_xiphlacing h.length).length -
            (av_xiphlacing hc.length).length - h.length - hc.length -
            k.length) 0 :=
    writeBytes_fill (((([2] ++ av_xiphlacing h.length) ++
        av_xiphlacing hc.length) ++ h) ++ hc) _ _ _
      (by simp [List.length_append]; omega)
  have hz : extradata_size h hc k - 1 - (av_xiphlacing h.length).length -
      (av_xiphlacing hc.length).length - h.length - hc.length - k.length = 0 := by
    omega
  constructor
  · show writeBytes (writeBytes (writeBytes (writeBytes (writeBytes
      (writeBytes (List.replicate (extradata_size h hc k) 0) 0 [2]) 1
        (av_xiphlacing h.length))
      (1 + (av_xiphlacing h.length).length) (av_xiphlacing hc.length))
      (1 + (av_xiphlacing h.length).length + (av_xiphlacing hc.length).length)
        h)
      (1 + (av_xiphlacing h.length).length + (av_xiphlacing hc.length).length +
        h.length) hc)
      (1 + (av_xiphlacing h.length).length + (av_xiphlacing hc.length).length +
        h.length + hc.length) k = _
    rw [e1, e2, e3, e4, e5, e6, hz]
    simp [List.append_assoc]
  · show 1 + (av_xiphlacing h.length).length +
      (av_xiphlacing hc.length).length + h.length + hc.length + k.length = _
    omega

/-- When the `vorbis_analysis_wrote` call (if one is made) does not fail,
`oggvorbis_encode_frame` is the retrieval-plus-output phase run on a state
with the same staging buffer. -/
theorem encode_frame_retrieve_eq (szOp : Nat) (s2t : Int → Int)
    (frameSize : Nat) (buf_size : Int) (hasData : Bool) (script : LibScript)
    (s : OggVorbisContext)
    (h1 : hasData = true → ¬ script.wroteRet < 0)
    (h2 : hasData = false → s.eof = false → ¬ script.wroteRet < 0) :
    oggvorbis_encode_frame szOp s2t frameSize buf_size hasData script s =
      encodeRetrieve szOp s2t buf_size script
        ⟨s.buffer, s.buffer_index, if hasData then s.eof else true⟩
        (if hasData then [frameSize] else if s.eof then [] else [0]) := by
  cases hasData with
  | false =>
    cases heof : s.eof with
    | false =>
      have hw := h2 rfl heof
      simp [oggvorbis_encode_frame, heof, hw]
    | true => simp [oggvorbis_encode_frame, heof]
  | true =>
    have hw := h1 rfl
    simp [oggvorbis_encode_frame, hw]

/-- The byte ranges written into `s->buffer` by one retrieval phase are
exactly those recorded by the staging loop. -/
theorem encodeRetrieve_writes_eq (szOp : Nat) (s2t : Int → Int)
    (buf_size : Int) (script : LibScript) (s : OggVorbisContext)
    (wargs : List Nat) :
    (encodeRetrieve szOp s2t buf_size script s wargs).writes =
    (runBlocks szOp s.buffer s.buffer_index script.blocks
      script.blockoutFinal).2.2.1 := by
  cases hout : (runBlocks szOp s.buffer s.buffer_index script.blocks
      script.blockoutFinal).2.2.2 with
  | overflow => rw [encodeRetrieve_overflow szOp s2t buf_size script s wargs hout]
  | err e => rw [encodeRetrieve_err szOp s2t buf_size script s wargs e hout]
  | ok =>
    by_cases hz : (runBlocks szOp s.buffer s.buffer_index script.blocks
        script.blockoutFinal).2.1 = 0
    · rw [encodeRetrieve_ok_empty szOp s2t buf_size script s wargs hout hz]
    · cases hst : (runBlocks szOp s.buffer s.buffer_index script.blocks
          script.blockoutFinal).1 with
      | nil => simp [encodeRetrieve, hout, hz, hst]
      | cons op2 rest =>
        by_cases hbig : (op2.bytes : Int) > buf_size
        · rw [encodeRetrieve_ok_big szOp s2t buf_size script s wargs op2 rest
            hout hz hst hbig]
        · rw [encodeRetrieve_ok_fit szOp s2t buf_size script s wargs op2 rest
            hout hz hst hbig]

/-- The retrieval-plus-output phase does not add `wrote` calls. -/
theorem encodeRetrieve_wroteArgs (szOp : Nat) (s2t : Int → Int)
    (buf_size : Int) (script : LibScript) (s : OggVorbisContext)
    (wargs : List Nat) :
    (encodeRetrieve szOp s2t buf_size script s wargs).wroteArgs = wargs := by
  cases hout : (runBlocks szOp s.buffer s.buffer_index script.blocks
      script.blockoutFinal).2.2.2 with
  | overflow => rw [encodeRetrieve_overflow szOp s2t buf_size script s wargs hout]
  | err e => rw [encodeRetrieve_err szOp s2t buf_size script s wargs e hout]
  | ok =>
    by_cases hz : (runBlocks szOp s.buffer s.buffer_index script.blocks
        script.blockoutFinal).2.1 = 0
    · rw [encodeRetrieve_ok_empty szOp s2t buf_size script s wargs hout hz]
    · cases hst : (runBlocks szOp s.buffer s.buffer_index script.blocks
          script.blockoutFinal).1 with
      | nil => simp [encodeRetrieve, hout, hz, hst]
      | cons op2 rest =>
        by_cases hbig : (op2.bytes : Int) > buf_size
        · rw [encodeRetrieve_ok_big szOp s2t buf_size script s wargs op2 rest
            hout hz hst hbig]
        · rw [encodeRetrieve_ok_fit szOp s2t buf_size script s wargs op2 rest
            hout hz hst hbig]

/-- The retrieval-plus-output phase does not change the `eof` flag. -/
theorem encodeRetrieve_state_eof (szOp : Nat) (s2t : Int → Int)
    (buf_size : Int) (script : LibScript) (s : OggVorbisContext)
    (wargs : List Nat) :
    (encodeRetrieve szOp s2t buf_size script s wargs).state.eof = s.eof := by
  cases hout : (runBlocks szOp s.buffer s.buffer_index script.blocks
      script.blockoutFinal).2.2.2 with
  | overflow => rw [encodeRetrieve_overflow szOp s2t buf_size script s wargs hout]
  | err e => rw [encodeRetrieve_err szOp s2t buf_size script s wargs e hout]
  | ok =>
    by_cases hz : (runBlocks szOp s.buffer s.buffer_index script.blocks
        script.blockoutFinal).2.1 = 0
    · rw [encodeRetrieve_ok_empty szOp s2t buf_size script s wargs hout hz]
    · cases hst : (runBlocks szOp s.buffer s.buffer_index script.blocks
          script.blockoutFinal).1 with
      | nil => simp [encodeRetrieve, hout, hz, hst]
      | cons op2 rest =>
        by_cases hbig : (op2.bytes : Int) > buf_size
        · rw [encodeRetrieve_ok_big szOp s2t buf_size script s wargs op2 rest
            hout hz hst hbig]
        · rw [encodeRetrieve_ok_fit szOp s2t buf_size script s wargs op2 rest
            hout hz hst hbig]

/-- Lines 151-153 of `oggvorbis_encode_close`: the close path issues its
own zero-length `vorbis_analysis_wrote` exactly when `dsp_initialized`
is set. -/
def oggvorbis_encode_close_wroteArgs (dsp_initialized : Bool) : List Nat :=
  if dsp_initialized then [0] else []

/-! ## Claim theorems -/

/-- C3: on successful init the extradata starts with the byte 2, followed
by the Xiph lacing of the first header's length, the Xiph lacing of the
comment header's length, and the three header packets (identification,
comment, setup) concatenated in that order; the byte count written is
exactly `extradata_size = 1 + xiph_len(header.bytes) +
xiph_len(header_comm.bytes) + header_code.bytes`. -/
theorem c3_extradata_layout (h hc k : List Nat) :
    (oggvorbis_extradata h hc k).1.getD 0 0 = 2 ∧
    (oggvorbis_extradata h hc k).1 =
      [2] ++ av_xiphlacing h.length ++ av_xiphlacing hc.length ++
        h ++ hc ++ k ∧
    (oggvorbis_extradata h hc k).1.length = extradata_size h hc k := by
  obtain ⟨heq, _⟩ := oggvorbis_extradata_eq h hc k
  refine ⟨?_, heq, ?_⟩
  · rw [heq]; rfl
  · rw [heq]
    simp only [List.length_append, List.length_cons, List.length_nil,
      av_xiphlacing_length]
    unfold extradata_size xiph_len
    omega

/-- C4: the Xiph lacing of a length `l` takes exactly `1 + l / 255`
bytes, `xiph_len l` exactly covers lacing plus payload, and the running
offset after packing the three headers equals the precomputed
`extradata_size`, so the assert at line 216 never fires. -/
theorem c4_offset_matches_size :
    (∀ l : Nat, (av_xiphlacing l).length = 1 + l / 255) ∧
    (∀ l : Nat, xiph_len l = (av_xiphlacing l).length + l) ∧
    (∀ h hc k : List Nat,
      (oggvorbis_extradata h hc k).2 = extradata_size h hc k) := by
  refine ⟨av_xiphlacing_length, ?_, ?_⟩
  · intro l
    rw [av_xiphlacing_length]
    unfold xiph_len
    omega
  · intro h hc k
    exact (oggvorbis_extradata_eq h hc k).2

/-- C6: the deinterleaving loop copies sample `i` of analysis channel `c`
from `audio[i * channels + co]`, where `co` is the channel-layout table
entry for at most 8 channels and the identity above 8 channels. -/
theorem c6_deinterleave {α : Type} (audio : Nat → α)
    (channels samples : Nat) (layout : Nat → Nat → Nat) (d : α)
    (c i : Nat) (hc : c < channels) (hi : i < samples) :
    ((analysis_buffer_fill audio channels samples layout).getD c []).getD
        i d =
      audio (i * channels +
        (if channels > 8 then c else layout (channels - 1) c)) := by
  have h1 : (analysis_buffer_fill audio channels samples layout).getD c [] =
      (List.range samples).map
        (fun j => audio (j * channels + channel_offset layout channels c)) := by
    unfold analysis_buffer_fill
    rw [List.getD_eq_getElem _ _ (by simpa using hc)]
    simp
  rw [h1, List.getD_eq_getElem _ _ (by simpa using hi)]
  simp [channel_offset]

/-- Witness for C6 at a concrete input: two channels, four samples,
identity-ish layout table, channel 1 sample 1 comes from offset 3. -/
theorem c6_deinterleave_witness :
    ((analysis_buffer_fill (fun n : Nat => n) 2 4
        (fun _ c => c)).getD 1 []).getD 1 99 = 3 := by
  have h := c6_deinterleave (fun n : Nat => n) 2 4 (fun _ c => c) 99 1 1
    (by decide) (by decide)
  simpa using h

/-- The cutoff, iblock and `setup_init` epilogue never changes which
setup call was issued. -/
theorem initFinish_snd (cfg : AVCodecCfg) (lib : InitScript)
    (mode : SetupMode) : (initFinish cfg lib mode).2 = mode := by
  unfold initFinish
  split_ifs <;> rfl

/-- A failing lowpass ctl (line 123) aborts the epilogue with its mapped
error. -/
theorem initFinish_lowpass (cfg : AVCodecCfg) (lib : InitScript)
    (mode : SetupMode) (hcut : cfg.cutoff > 0)
    (hlp : lib.ctlLowpassRet ≠ 0) :
    (initFinish cfg lib mode).1 =
      vorbis_error_to_averror lib.ctlLowpassRet := by
  unfold initFinish
  rw [if_pos ⟨hcut, hlp⟩]

/-- A failing impulse-block ctl (line 129), reached because the lowpass
ctl was skipped or succeeded, aborts with its mapped error. -/
theorem initFinish_iblock (cfg : AVCodecCfg) (lib : InitScript)
    (mode : SetupMode) (hlp : cfg.cutoff > 0 → lib.ctlLowpassRet = 0)
    (hib : cfg.iblock ≠ 0) (hibr : lib.ctlIblockRet ≠ 0) :
    (initFinish cfg lib mode).1 =
      vorbis_error_to_averror lib.ctlIblockRet := by
  unfold initFinish
  rw [if_neg (fun hx => hx.2 (hlp hx.1)), if_pos ⟨hib, hibr⟩]

/-- A failing `vorbis_encode_setup_init` (line 133), reached because the
two ctls were skipped or succeeded, aborts with its mapped error. -/
theorem initFinish_setupInit (cfg : AVCodecCfg) (lib : InitScript)
    (mode : SetupMode) (hlp : cfg.cutoff > 0 → lib.ctlLowpassRet = 0)
    (hib : cfg.iblock ≠ 0 → lib.ctlIblockRet = 0)
    (hs : lib.setupInitRet ≠ 0) :
    (initFinish cfg lib mode).1 =
      vorbis_error_to_averror lib.setupInitRet := by
  unfold initFinish
  rw [if_neg (fun hx => hx.2 (hlp hx.1)),
    if_neg (fun hx => hx.2 (hib hx.1)), if_pos hs]

/-- The `int` result of the epilogue does not depend on the setup mode
it threads through. -/
theorem initFinish_fst_eq (cfg : AVCodecCfg) (lib : InitScript)
    (m1 m2 : SetupMode) :
    (initFinish cfg lib m1).1 = (initFinish cfg lib m2).1 := by
  unfold initFinish
  split_ifs <;> rfl

/-- When the branch-specific setup phase succeeds, the result of
`oggvorbis_init_encoder` is the result of the line 120-138 epilogue. -/
theorem init_encoder_finish (cfg : AVCodecCfg) (lib : InitScript)
    (hsp : setupPhaseOk cfg lib) :
    (oggvorbis_init_encoder cfg lib).1 =
      (initFinish cfg lib (SetupMode.vbr 0 0 0)).1 := by
  unfold setupPhaseOk at hsp
  by_cases hcond : cfg.flag_qscale = true ∨ cfg.bit_rate = 0
  · rw [if_pos hcond] at hsp
    simp only [oggvorbis_init_encoder]
    rw [if_pos hcond, if_neg (by simp [hsp])]
    exact initFinish_fst_eq cfg lib _ _
  · rw [if_neg hcond] at hsp
    obtain ⟨hm, hrts⟩ := hsp
    by_cases hmm : (if cfg.rc_min_rate > 0 then cfg.rc_min_rate
        else (-1 : Int)) = -1 ∧
        (if cfg.rc_max_rate > 0 then cfg.rc_max_rate else (-1 : Int)) = -1
    · simp only [oggvorbis_init_encoder]
      rw [if_neg hcond, if_neg (by simp [hm]), if_pos hmm,
        if_neg (by simp [hrts hmm])]
      exact initFinish_fst_eq cfg lib _ _
    · simp only [oggvorbis_init_encoder]
      rw [if_neg hcond, if_neg (by simp [hm]), if_neg hmm]
      exact initFinish_fst_eq cfg lib _ _

/-- The setup call issued by `oggvorbis_init_encoder`, independent of
which library result (if any) aborted the init. -/
theorem oggvorbis_init_encoder_snd (cfg : AVCodecCfg) (lib : InitScript) :
    (oggvorbis_init_encoder cfg lib).2 =
      if cfg.flag_qscale ∨ cfg.bit_rate = 0 then
        SetupMode.vbr cfg.channels cfg.sample_rate
          ((if ¬cfg.flag_qscale then (3 : ℚ)
            else (cfg.global_quality : ℚ) / FF_QP2LAMBDA) / 10)
      else
        SetupMode.managed cfg.channels cfg.sample_rate
          (if cfg.rc_max_rate > 0 then cfg.rc_max_rate else -1)
          cfg.bit_rate
          (if cfg.rc_min_rate > 0 then cfg.rc_min_rate else -1) := by
  simp only [oggvorbis_init_encoder]
  by_cases hq : cfg.flag_qscale = true ∨ cfg.bit_rate = 0
  · rw [if_pos hq, if_pos hq]
    by_cases hv : lib.vbrRet ≠ 0
    · rw [if_pos hv]
    · rw [if_neg hv, initFinish_snd]
  · rw [if_neg hq, if_neg hq]
    by_cases hm : lib.managedRet ≠ 0
    · rw [if_pos hm]
    · rw [if_neg hm]
      by_cases hr : (if cfg.rc_min_rate > 0 then cfg.rc_min_rate else -1) = -1 ∧
          (if cfg.rc_max_rate > 0 then cfg.rc_max_rate else -1) = -1
      · rw [if_pos hr]
        by_cases hct : lib.ctlRateRet ≠ 0
        · rw [if_pos hct]
        · rw [if_neg hct, initFinish_snd]
      · rw [if_neg hr, initFinish_snd]

/-- C7: with the codec default `bit_rate = 0` and no QSCALE flag the
encoder is set up in variable-bitrate mode with quality 3 (0.3 passed to
libvorbis); with QSCALE the quality is `global_quality / FF_QP2LAMBDA`
divided by 10; managed (average-bitrate) mode is used exactly when a
nonzero bit rate is set without QSCALE. -/
theorem c7_option_parsing (cfg : AVCodecCfg) (lib : InitScript) :
    (cfg.flag_qscale = false → cfg.bit_rate = default_bit_rate →
      (oggvorbis_init_encoder cfg lib).2 =
        SetupMode.vbr cfg.channels cfg.sample_rate (3 / 10)) ∧
    (cfg.flag_qscale = true →
      (oggvorbis_init_encoder cfg lib).2 =
        SetupMode.vbr cfg.channels cfg.sample_rate
          ((cfg.global_quality : ℚ) / FF_QP2LAMBDA / 10)) ∧
    (cfg.flag_qscale = false → cfg.bit_rate ≠ 0 →
      (oggvorbis_init_encoder cfg lib).2 =
        SetupMode.managed cfg.channels cfg.sample_rate
          (if cfg.rc_max_rate > 0 then cfg.rc_max_rate else -1)
          cfg.bit_rate
          (if cfg.rc_min_rate > 0 then cfg.rc_min_rate else -1)) := by
  refine ⟨?_, ?_, ?_⟩
  · intro hq hb
    rw [oggvorbis_init_encoder_snd]
    rw [hb] at *
    simp [hq, default_bit_rate]
  · intro hq
    rw [oggvorbis_init_encoder_snd]
    simp [hq]
  · intro hq hb
    rw [oggvorbis_init_encoder_snd]
    simp [hq, hb]

/-- Witness for C7: at the codec defaults (no QSCALE, `bit_rate` 0) a
stereo 44100 Hz context selects vbr quality 3/10. -/
theorem c7_option_parsing_witness :
    (oggvorbis_init_encoder ⟨false, 0, 0, 0, 0, 0, 2, 44100, 0⟩
        ⟨0, 0, 0, 0, 0, 0⟩).2 =
      SetupMode.vbr 2 44100 (3 / 10) :=
  (c7_option_parsing ⟨false, 0, 0, 0, 0, 0, 2, 44100, 0⟩
    ⟨0, 0, 0, 0, 0, 0⟩).1 rfl rfl

/-- C10: `vorbis_error_to_averror` maps `OV_EFAULT` to `AVERROR_BUG`,
`OV_EINVAL` and `OV_EIMPL` to `AVERROR(EINVAL)` and everything else to
`AVERROR_UNKNOWN`; every negative libvorbis result in the encode path
(the `wrote` call and all four retrieval-loop error sources) is
propagated through this mapping; and so is every failing libvorbis call
in init: the two setup calls, each of the three `vorbis_encode_ctl`
calls (ratemanage, lowpass, impulse block), `vorbis_encode_setup_init`,
and — in `oggvorbis_encode_init` — `vorbis_analysis_init`,
`vorbis_block_init` and `vorbis_analysis_headerout` (a nonzero
`oggvorbis_init_encoder` result, already mapped, passes through
unchanged).  Each init conjunct assumes exactly the control-flow
conditions under which its call site is reached. -/
theorem c10_error_mapping :
    vorbis_error_to_averror OV_EFAULT = AVERROR_BUG ∧
    vorbis_error_to_averror OV_EINVAL = AVERROR EINVAL ∧
    vorbis_error_to_averror OV_EIMPL = AVERROR EINVAL ∧
    (∀ e : Int, e ≠ OV_EFAULT → e ≠ OV_EINVAL → e ≠ OV_EIMPL →
      vorbis_error_to_averror e = AVERROR_UNKNOWN) ∧
    (∀ (szOp : Nat) (s2t : Int → Int) (frameSize : Nat) (buf_size : Int)
        (hasData : Bool) (script : LibScript) (s : OggVorbisContext),
      (hasData = true ∨ s.eof = false) → script.wroteRet < 0 →
      (oggvorbis_encode_frame szOp s2t frameSize buf_size hasData
          script s).ret = vorbis_error_to_averror script.wroteRet) ∧
    (∀ (szOp : Nat) (s2t : Int → Int) (frameSize : Nat) (buf_size : Int)
        (hasData : Bool) (script : LibScript) (s : OggVorbisContext)
        (e : Int),
      (hasData = true → ¬ script.wroteRet < 0) →
      (hasData = false → s.eof = false → ¬ script.wroteRet < 0) →
      (runBlocks szOp s.buffer s.buffer_index script.blocks
        script.blockoutFinal).2.2.2 = .err e →
      (oggvorbis_encode_frame szOp s2t frameSize buf_size hasData
          script s).ret = vorbis_error_to_averror e) ∧
    (∀ (cfg : AVCodecCfg) (lib : InitScript),
      (cfg.flag_qscale = true ∨ cfg.bit_rate = 0) → lib.vbrRet ≠ 0 →
      (oggvorbis_init_encoder cfg lib).1 =
        vorbis_error_to_averror lib.vbrRet) ∧
    (∀ (cfg : AVCodecCfg) (lib : InitScript),
      ¬ (cfg.flag_qscale = true ∨ cfg.bit_rate = 0) → lib.managedRet ≠ 0 →
      (oggvorbis_init_encoder cfg lib).1 =
        vorbis_error_to_averror lib.managedRet) ∧
    (∀ (cfg : AVCodecCfg) (lib : InitScript),
      ¬ (cfg.flag_qscale = true ∨ cfg.bit_rate = 0) → lib.managedRet = 0 →
      ((if cfg.rc_min_rate > 0 then cfg.rc_min_rate else -1) = -1 ∧
       (if cfg.rc_max_rate > 0 then cfg.rc_max_rate else -1) = -1) →
      lib.ctlRateRet ≠ 0 →
      (oggvorbis_init_encoder cfg lib).1 =
        vorbis_error_to_averror lib.ctlRateRet) ∧
    (∀ (cfg : AVCodecCfg) (lib : InitScript),
      setupPhaseOk cfg lib → cfg.cutoff > 0 → lib.ctlLowpassRet ≠ 0 →
      (oggvorbis_init_encoder cfg lib).1 =
        vorbis_error_to_averror lib.ctlLowpassRet) ∧
    (∀ (cfg : AVCodecCfg) (lib : InitScript),
      setupPhaseOk cfg lib → (cfg.cutoff > 0 → lib.ctlLowpassRet = 0) →
      cfg.iblock ≠ 0 → lib.ctlIblockRet ≠ 0 →
      (oggvorbis_init_encoder cfg lib).1 =
        vorbis_error_to_averror lib.ctlIblockRet) ∧
    (∀ (cfg : AVCodecCfg) (lib : InitScript),
      setupPhaseOk cfg lib → (cfg.cutoff > 0 → lib.ctlLowpassRet = 0) →
      (cfg.iblock ≠ 0 → lib.ctlIblockRet = 0) → lib.setupInitRet ≠ 0 →
      (oggvorbis_init_encoder cfg lib).1 =
        vorbis_error_to_averror lib.setupInitRet) ∧
    (∀ (cfg : AVCodecCfg) (lib : InitScript)
        (a b hr : Int) (h1 h2 h3 : List Nat) (mo co : Bool),
      (oggvorbis_init_encoder cfg lib).1 ≠ 0 →
      (oggvorbis_encode_init cfg lib a b hr h1 h2 h3 mo co).1 =
        (oggvorbis_init_encoder cfg lib).1) ∧
    (∀ (cfg : AVCodecCfg) (lib : InitScript)
        (a b hr : Int) (h1 h2 h3 : List Nat) (mo co : Bool),
      (oggvorbis_init_encoder cfg lib).1 = 0 → a ≠ 0 →
      (oggvorbis_encode_init cfg lib a b hr h1 h2 h3 mo co).1 =
        vorbis_error_to_averror a) ∧
    (∀ (cfg : AVCodecCfg) (lib : InitScript)
        (a b hr : Int) (h1 h2 h3 : List Nat) (mo co : Bool),
      (oggvorbis_init_encoder cfg lib).1 = 0 → a = 0 → b ≠ 0 →
      (oggvorbis_encode_init cfg lib a b hr h1 h2 h3 mo co).1 =
        vorbis_error_to_averror b) ∧
    (∀ (cfg : AVCodecCfg) (lib : InitScript)
        (a b hr : Int) (h1 h2 h3 : List Nat) (mo co : Bool),
      (oggvorbis_init_encoder cfg lib).1 = 0 → a = 0 → b = 0 → hr ≠ 0 →
      (oggvorbis_encode_init cfg lib a b hr h1 h2 h3 mo co).1 =
        vorbis_error_to_averror hr) := by
  refine ⟨by decide, by decide, by decide, ?_, ?_, ?_, ?_, ?_, ?_, ?_, ?_,
    ?_, ?_, ?_, ?_, ?_⟩
  · intro e h1 h2 h3
    simp [vorbis_error_to_averror, h1, h2, h3]
  · intro szOp s2t frameSize buf_size hasData script s hreach hw
    cases hasData with
    | true => simp [oggvorbis_encode_frame, hw]
    | false =>
      have heof : s.eof = false := by
        rcases hreach with h | h
        · exact absurd h (by simp)
        · exact h
      simp [oggvorbis_encode_frame, hw, heof]
  · intro szOp s2t frameSize buf_size hasData script s e h1 h2 he
    rw [encode_frame_retrieve_eq szOp s2t frameSize buf_size hasData script s
      h1 h2]
    rw [encodeRetrieve_err szOp s2t buf_size script
      ⟨s.buffer, s.buffer_index, if hasData = true then s.eof else true⟩
      (if hasData = true then [frameSize] else if s.eof = true then [] else [0])
      e he]
  · intro cfg lib hcond hv
    simp only [oggvorbis_init_encoder, if_pos hcond, if_pos hv]
  · intro cfg lib hcond hm
    simp only [oggvorbis_init_encoder, if_neg hcond, if_pos hm]
  · intro cfg lib hcond hm hmm hr
    simp only [oggvorbis_init_encoder]
    rw [if_neg hcond, if_neg (by simp [hm]), if_pos hmm, if_pos hr]
  · intro cfg lib hsp hcut hlp
    rw [init_encoder_finish cfg lib hsp]
    exact initFinish_lowpass cfg lib _ hcut hlp
  · intro cfg lib hsp hlp hib hibr
    rw [init_encoder_finish cfg lib hsp]
    exact initFinish_iblock cfg lib _ hlp hib hibr
  · intro cfg lib hsp hlp hib hs
    rw [init_encoder_finish cfg lib hsp]
    exact initFinish_setupInit cfg lib _ hlp hib hs
  · intro cfg lib a b hr h1 h2 h3 mo co h0
    simp only [oggvorbis_encode_init]
    rw [if_pos h0]
  · intro cfg lib a b hr h1 h2 h3 mo co h0 ha
    simp only [oggvorbis_encode_init]
    rw [if_neg (by simp [h0]), if_pos ha]
  · intro cfg lib a b hr h1 h2 h3 mo co h0 ha hb
    simp only [oggvorbis_encode_init]
    rw [if_neg (by simp [h0]), if_neg (by simp [ha]), if_pos hb]
  · intro cfg lib a b hr h1 h2 h3 mo co h0 ha hb hh
    simp only [oggvorbis_encode_init]
    rw [if_neg (by simp [h0]), if_neg (by simp [ha]),
      if_neg (by simp [hb]), if_pos hh]

/-- Witness for C10: the catch-all case maps `OV_FALSE` (-1) to
`AVERROR_UNKNOWN`. -/
theorem c10_error_mapping_witness :
    vorbis_error_to_averror (-1) = AVERROR_UNKNOWN :=
  c10_error_mapping.2.2.2.1 (-1) (by decide) (by decide) (by decide)

/-- C1: every `memcpy` into `s->buffer` issued while staging compressed
packets stays within the 65536-byte staging buffer — each recorded write
range `(offset, length)` satisfies `0 ≤ offset` and
`offset + length ≤ BUFFER_SIZE` — and when the pre-append check
`buffer_index + sizeof(ogg_packet) + op.bytes > BUFFER_SIZE` fires the
call returns -1. -/
theorem c1_staging_bounded (szOp : Nat) (s2t : Int → Int) (frameSize : Nat)
    (buf_size : Int) (hasData : Bool) (script : LibScript)
    (s : OggVorbisContext) (h0 : 0 ≤ s.buffer_index) :
    (∀ w ∈ (oggvorbis_encode_frame szOp s2t frameSize buf_size hasData
        script s).writes,
      0 ≤ w.1 ∧ w.1 + (w.2 : Int) ≤ (BUFFER_SIZE : Int)) ∧
    ((hasData = true → ¬ script.wroteRet < 0) →
     (hasData = false → s.eof = false → ¬ script.wroteRet < 0) →
     (runBlocks szOp s.buffer s.buffer_index script.blocks
        script.blockoutFinal).2.2.2 = .overflow →
     (oggvorbis_encode_frame szOp s2t frameSize buf_size hasData
        script s).ret = -1) := by
  constructor
  · cases hasData with
    | true =>
      by_cases hw : script.wroteRet < 0
      · intro w hw2
        simp [oggvorbis_encode_frame, hw] at hw2
      · rw [encode_frame_retrieve_eq szOp s2t frameSize buf_size true script s
          (fun _ => hw) (fun hf _ => Bool.noConfusion hf)]
        intro w hwm
        rw [encodeRetrieve_writes_eq] at hwm
        exact runBlocks_writes_bound szOp script.blockoutFinal script.blocks
          s.buffer s.buffer_index h0 w hwm
    | false =>
      cases heof : s.eof with
      | true =>
        rw [encode_frame_retrieve_eq szOp s2t frameSize buf_size false script
          s (fun hf => Bool.noConfusion hf)
          (fun _ hf => absurd (heof ▸ hf) (by simp))]
        intro w hwm
        rw [encodeRetrieve_writes_eq] at hwm
        exact runBlocks_writes_bound szOp script.blockoutFinal script.blocks
          s.buffer s.buffer_index h0 w hwm
      | false =>
        by_cases hw : script.wroteRet < 0
        · intro w hw2
          simp [oggvorbis_encode_frame, hw, heof] at hw2
        · rw [encode_frame_retrieve_eq szOp s2t frameSize buf_size false
            script s (fun hf => Bool.noConfusion hf) (fun _ _ => hw)]
          intro w hwm
          rw [encodeRetrieve_writes_eq] at hwm
          exact runBlocks_writes_bound szOp script.blockoutFinal script.blocks
            s.buffer s.buffer_index h0 w hwm
  · intro h1 h2 hov
    rw [encode_frame_retrieve_eq szOp s2t frameSize buf_size hasData script s
      h1 h2]
    rw [encodeRetrieve_overflow szOp s2t buf_size script
      ⟨s.buffer, s.buffer_index, if hasData = true then s.eof else true⟩
      (if hasData = true then [frameSize] else if s.eof = true then [] else [0])
      hov]

/-- Witness for C1: with `sizeof(ogg_packet)` taken as 70000 any packet
trips the bound check and the call returns -1. -/
theorem c1_staging_bounded_witness :
    (oggvorbis_encode_frame 70000 (fun g => g) 64 10 true
      ⟨0, [⟨0, 0, [⟨[], 0⟩], 0⟩], 0⟩ ⟨[], 0, false⟩).ret = -1 :=
  (c1_staging_bounded 70000 (fun g => g) 64 10 true
      ⟨0, [⟨0, 0, [⟨[], 0⟩], 0⟩], 0⟩ ⟨[], 0, false⟩ (by decide)).2
    (fun _ => by decide) (fun hf _ => Bool.noConfusion hf) (by decide)

/-- C2: the bookkeeping invariant `buffer_index = Σ staged
(sizeof(ogg_packet) + payload) ∈ [0, BUFFER_SIZE]` is preserved by every
call; newly flushed packets are appended at the back, each adding exactly
`sizeof(ogg_packet) + op.bytes` to `buffer_index`, and at most the oldest
packet is dequeued, subtracting exactly `sizeof(ogg_packet) + pkt_size`
and leaving the remaining packets in order at the front. -/
theorem c2_bookkeeping (szOp : Nat) (s2t : Int → Int) (frameSize : Nat)
    (buf_size : Int) (hasData : Bool) (script : LibScript)
    (s : OggVorbisContext) (h : Inv szOp s) :
    Inv szOp (oggvorbis_encode_frame szOp s2t frameSize buf_size hasData
      script s).state ∧
    0 ≤ (oggvorbis_encode_frame szOp s2t frameSize buf_size hasData
      script s).state.buffer_index ∧
    (oggvorbis_encode_frame szOp s2t frameSize buf_size hasData
      script s).state.buffer_index ≤ (BUFFER_SIZE : Int) ∧
    ∃ new,
      ((oggvorbis_encode_frame szOp s2t frameSize buf_size hasData
          script s).state.buffer = s.buffer ++ new ∧
       (oggvorbis_encode_frame szOp s2t frameSize buf_size hasData
          script s).state.buffer_index =
         s.buffer_index + (stagedSize szOp new : Int)) ∨
      (∃ op rest, s.buffer ++ new = op :: rest ∧
        (oggvorbis_encode_frame szOp s2t frameSize buf_size hasData
          script s).state.buffer = rest ∧
        (oggvorbis_encode_frame szOp s2t frameSize buf_size hasData
          script s).state.buffer_index =
          s.buffer_index + (stagedSize szOp new : Int) -
            ((szOp : Int) + (op.bytes : Int)) ∧
        (oggvorbis_encode_frame szOp s2t frameSize buf_size hasData
          script s).output = some op.payload) := by
  have hRetrieve : ∀ (s2 : OggVorbisContext) (wargs : List Nat),
      s2.buffer = s.buffer → s2.buffer_index = s.buffer_index →
      Inv szOp (encodeRetrieve szOp s2t buf_size script s2 wargs).state ∧
      0 ≤ (encodeRetrieve szOp s2t buf_size script s2 wargs).state.buffer_index ∧
      (encodeRetrieve szOp s2t buf_size script s2 wargs).state.buffer_index ≤
        (BUFFER_SIZE : Int) ∧
      ∃ new,
        (((encodeRetrieve szOp s2t buf_size script s2 wargs).state.buffer =
            s.buffer ++ new ∧
          (encodeRetrieve szOp s2t buf_size script s2 wargs).state.buffer_index =
            s.buffer_index + (stagedSize szOp new : Int)) ∨
         (∃ op rest, s.buffer ++ new = op :: rest ∧
           (encodeRetrieve szOp s2t buf_size script s2 wargs).state.buffer =
             rest ∧
           (encodeRetrieve szOp s2t buf_size script s2 wargs).state.buffer_index =
             s.buffer_index + (stagedSize szOp new : Int) -
               ((szOp : Int) + (op.bytes : Int)) ∧
           (encodeRetrieve szOp s2t buf_size script s2 wargs).output =
             some op.payload)) := by
    intro s2 wargs hbuf hidx
    have h2 : Inv szOp s2 := ⟨by rw [hbuf, hidx]; exact h.1,
      by rw [hidx]; exact h.2⟩
    obtain ⟨hi, new, hd⟩ := encodeRetrieve_inv szOp s2t buf_size script s2
      wargs h2
    refine ⟨hi, ?_, hi.2, new, ?_⟩
    · rw [hi.1]
      exact Int.natCast_nonneg _
    · rw [hbuf, hidx] at hd
      exact hd
  cases hasData with
  | true =>
    by_cases hw : script.wroteRet < 0
    · have hstate : (oggvorbis_encode_frame szOp s2t frameSize buf_size true
          script s).state = s := by
        simp [oggvorbis_encode_frame, hw]
      rw [hstate]
      refine ⟨h, ?_, h.2, ⟨[], Or.inl ⟨by simp, by simp [stagedSize_nil]⟩⟩⟩
      rw [h.1]
      exact Int.natCast_nonneg _
    · rw [encode_frame_retrieve_eq szOp s2t frameSize buf_size true script s
        (fun _ => hw) (fun hf _ => Bool.noConfusion hf)]
      exact hRetrieve _ _ rfl rfl
  | false =>
    cases heof : s.eof with
    | true =>
      rw [encode_frame_retrieve_eq szOp s2t frameSize buf_size false script s
        (fun hf => Bool.noConfusion hf)
        (fun _ hf => absurd (heof ▸ hf) (by simp))]
      exact hRetrieve _ _ rfl rfl
    | false =>
      by_cases hw : script.wroteRet < 0
      · have hstate : (oggvorbis_encode_frame szOp s2t frameSize buf_size
            false script s).state = s := by
          simp [oggvorbis_encode_frame, hw, heof]
        rw [hstate]
        refine ⟨h, ?_, h.2, ⟨[], Or.inl ⟨by simp, by simp [stagedSize_nil]⟩⟩⟩
        rw [h.1]
        exact Int.natCast_nonneg _
      · rw [encode_frame_retrieve_eq szOp s2t frameSize buf_size false script
          s (fun hf => Bool.noConfusion hf) (fun _ _ => hw)]
        exact hRetrieve _ _ rfl rfl

/-- Witness for C2: the invariant holds after a call that stages and
emits one two-byte packet. -/
theorem c2_bookkeeping_witness :
    Inv 48 (oggvorbis_encode_frame 48 (fun g => g) 64 10 true
      ⟨0, [⟨0, 0, [⟨[7, 8], 5⟩], 0⟩], 0⟩ ⟨[], 0, false⟩).state :=
  (c2_bookkeeping 48 (fun g => g) 64 10 true
    ⟨0, [⟨0, 0, [⟨[7, 8], 5⟩], 0⟩], 0⟩ ⟨[], 0, false⟩ (by decide)).1

/-- C5: with no library error and enough staging room, a call emits at
most one packet — the oldest staged one — returning its byte size and
removing exactly it from the buffer; with nothing staged the call
returns 0 and writes no output. -/
theorem c5_fifo_single (szOp : Nat) (s2t : Int → Int) (frameSize : Nat)
    (buf_size : Int) (hasData : Bool) (script : LibScript)
    (s : OggVorbisContext) (hsz : 0 < szOp) (hInv : Inv szOp s)
    (hok : ScriptOk script)
    (hfit : s.buffer_index +
      (stagedSize szOp (allPackets script.blocks) : Int) ≤
        (BUFFER_SIZE : Int)) :
    (s.buffer ++ allPackets script.blocks = [] →
      (oggvorbis_encode_frame szOp s2t frameSize buf_size hasData script
        s).ret = 0 ∧
      (oggvorbis_encode_frame szOp s2t frameSize buf_size hasData script
        s).output = none ∧
      (oggvorbis_encode_frame szOp s2t frameSize buf_size hasData script
        s).state.buffer = []) ∧
    (∀ op rest, s.buffer ++ allPackets script.blocks = op :: rest →
      (op.bytes : Int) ≤ buf_size →
      (oggvorbis_encode_frame szOp s2t frameSize buf_size hasData script
        s).ret = (op.bytes : Int) ∧
      (oggvorbis_encode_frame szOp s2t frameSize buf_size hasData script
        s).output = some op.payload ∧
      (oggvorbis_encode_frame szOp s2t frameSize buf_size hasData script
        s).state.buffer = rest) := by
  have hw : ¬ script.wroteRet < 0 := not_lt.mpr hok.1
  rw [encode_frame_retrieve_eq szOp s2t frameSize buf_size hasData script s
    (fun _ => hw) (fun _ _ => hw)]
  obtain ⟨hb1, hb2, hb3⟩ := runBlocks_ok szOp script.blockoutFinal
    script.blocks hok.2.1 hok.2.2 s.buffer s.buffer_index hfit
  constructor
  · intro hL
    obtain ⟨hbuf, hall⟩ := List.append_eq_nil.mp hL
    have hz : (runBlocks szOp s.buffer s.buffer_index script.blocks
        script.blockoutFinal).2.1 = 0 := by
      rw [hb2, hInv.1, hbuf, hall]
      simp [stagedSize_nil]
    rw [encodeRetrieve_ok_empty szOp s2t buf_size script
      ⟨s.buffer, s.buffer_index, if hasData = true then s.eof else true⟩
      (if hasData = true then [frameSize] else if s.eof = true then [] else [0])
      hb3 hz]
    refine ⟨rfl, rfl, ?_⟩
    show (runBlocks szOp s.buffer s.buffer_index script.blocks
      script.blockoutFinal).1 = []
    rw [hb1, hL]
  · intro op rest hL hble
    have hidx : (runBlocks szOp s.buffer s.buffer_index script.blocks
        script.blockoutFinal).2.1 =
        (stagedSize szOp (op :: rest) : Int) := by
      rw [hb2, hInv.1, ← hL, stagedSize_append]
      push_cast
      ring
    have hz : (runBlocks szOp s.buffer s.buffer_index script.blocks
        script.blockoutFinal).2.1 ≠ 0 := by
      rw [hidx, stagedSize_cons]
      simp only [ne_eq, Int.natCast_eq_zero]
      omega
    have hst : (runBlocks szOp s.buffer s.buffer_index script.blocks
        script.blockoutFinal).1 = op :: rest := by
      rw [hb1, hL]
    have hbig : ¬ (op.bytes : Int) > buf_size := not_lt.mpr hble
    rw [encodeRetrieve_ok_fit szOp s2t buf_size script
      ⟨s.buffer, s.buffer_index, if hasData = true then s.eof else true⟩
      (if hasData = true then [frameSize] else if s.eof = true then [] else [0])
      op rest hb3 hz hst hbig]
    exact ⟨rfl, rfl, rfl⟩

/-- Witness for C5: staging one two-byte packet into an empty buffer and
emitting it in the same call. -/
theorem c5_fifo_single_witness :
    (oggvorbis_encode_frame 48 (fun g => g) 64 10 true
      ⟨0, [⟨0, 0, [⟨[7, 8], 5⟩], 0⟩], 0⟩ ⟨[], 0, false⟩).ret = 2 ∧
    (oggvorbis_encode_frame 48 (fun g => g) 64 10 true
      ⟨0, [⟨0, 0, [⟨[7, 8], 5⟩], 0⟩], 0⟩ ⟨[], 0, false⟩).output =
        some [7, 8] ∧
    (oggvorbis_encode_frame 48 (fun g => g) 64 10 true
      ⟨0, [⟨0, 0, [⟨[7, 8], 5⟩], 0⟩], 0⟩ ⟨[], 0, false⟩).state.buffer = [] :=
  (c5_fifo_single 48 (fun g => g) 64 10 true
      ⟨0, [⟨0, 0, [⟨[7, 8], 5⟩], 0⟩], 0⟩ ⟨[], 0, false⟩ (by decide)
      (by decide) (by decide) (by decide)).2
    ⟨[7, 8], 5⟩ [] (by decide) (by decide)

/-- C8: when the oldest staged packet is larger than the caller's output
buffer the call returns -1 and the staging buffer is left untouched (the
packet stays staged; with no packets flushed this call, buffer and index
are exactly the caller's), but `coded_frame->pts` has already been
overwritten with that packet's timestamp. -/
theorem c8_undersized_output (szOp : Nat) (s2t : Int → Int)
    (frameSize : Nat) (buf_size : Int) (hasData : Bool)
    (script : LibScript) (s : OggVorbisContext) (op2 : OggPacket)
    (rest : List OggPacket)
    (h1 : hasData = true → ¬ script.wroteRet < 0)
    (h2 : hasData = false → s.eof = false → ¬ script.wroteRet < 0)
    (hout : (runBlocks szOp s.buffer s.buffer_index script.blocks
      script.blockoutFinal).2.2.2 = .ok)
    (hz : (runBlocks szOp s.buffer s.buffer_index script.blocks
      script.blockoutFinal).2.1 ≠ 0)
    (hst : (runBlocks szOp s.buffer s.buffer_index script.blocks
      script.blockoutFinal).1 = op2 :: rest)
    (hbig : (op2.bytes : Int) > buf_size) :
    (oggvorbis_encode_frame szOp s2t frameSize buf_size hasData script
      s).ret = -1 ∧
    (oggvorbis_encode_frame szOp s2t frameSize buf_size hasData script
      s).state.buffer = op2 :: rest ∧
    (oggvorbis_encode_frame szOp s2t frameSize buf_size hasData script
      s).state.buffer_index =
      (runBlocks szOp s.buffer s.buffer_index script.blocks
        script.blockoutFinal).2.1 ∧
    (oggvorbis_encode_frame szOp s2t frameSize buf_size hasData script
      s).output = none ∧
    (oggvorbis_encode_frame szOp s2t frameSize buf_size hasData script
      s).pts = some (s2t op2.granulepos) ∧
    (script.blocks = [] →
      (oggvorbis_encode_frame szOp s2t frameSize buf_size hasData script
        s).state.buffer = s.buffer ∧
      (oggvorbis_encode_frame szOp s2t frameSize buf_size hasData script
        s).state.buffer_index = s.buffer_index) := by
  rw [encode_frame_retrieve_eq szOp s2t frameSize buf_size hasData script s
    h1 h2]
  rw [encodeRetrieve_ok_big szOp s2t buf_size script
    ⟨s.buffer, s.buffer_index, if hasData = true then s.eof else true⟩
    (if hasData = true then [frameSize] else if s.eof = true then [] else [0])
    op2 rest hout hz hst hbig]
  refine ⟨rfl, rfl, rfl, rfl, rfl, ?_⟩
  intro hbl
  have hnil1 : (runBlocks szOp s.buffer s.buffer_index script.blocks
      script.blockoutFinal).1 = s.buffer := by
    rw [hbl]
    rfl
  have hnil2 : (runBlocks szOp s.buffer s.buffer_index script.blocks
      script.blockoutFinal).2.1 = s.buffer_index := by
    rw [hbl]
    rfl
  constructor
  · show op2 :: rest = s.buffer
    rw [← hst, hnil1]
  · show (runBlocks szOp s.buffer s.buffer_index script.blocks
      script.blockoutFinal).2.1 = s.buffer_index
    exact hnil2

/-- Witness for C8: one three-byte packet staged, output buffer of two
bytes; the call fails with -1 after storing the packet's timestamp. -/
theorem c8_undersized_output_witness :
    (oggvorbis_encode_frame 48 (fun g => g) 64 2 true ⟨0, [], 0⟩
      ⟨[⟨[1, 2, 3], 7⟩], 51, false⟩).ret = -1 ∧
    (oggvorbis_encode_frame 48 (fun g => g) 64 2 true ⟨0, [], 0⟩
      ⟨[⟨[1, 2, 3], 7⟩], 51, false⟩).pts = some 7 ∧
    (oggvorbis_encode_frame 48 (fun g => g) 64 2 true ⟨0, [], 0⟩
      ⟨[⟨[1, 2, 3], 7⟩], 51, false⟩).state.buffer = [⟨[1, 2, 3], 7⟩] :=
  ⟨(c8_undersized_output 48 (fun g => g) 64 2 true ⟨0, [], 0⟩
      ⟨[⟨[1, 2, 3], 7⟩], 51, false⟩ ⟨[1, 2, 3], 7⟩ []
      (fun _ => by decide) (fun hf _ => Bool.noConfusion hf)
      (by decide) (by decide) (by decide) (by decide)).1,
   (c8_undersized_output 48 (fun g => g) 64 2 true ⟨0, [], 0⟩
      ⟨[⟨[1, 2, 3], 7⟩], 51, false⟩ ⟨[1, 2, 3], 7⟩ []
      (fun _ => by decide) (fun hf _ => Bool.noConfusion hf)
      (by decide) (by decide) (by decide) (by decide)).2.2.2.2.1,
   (c8_undersized_output 48 (fun g => g) 64 2 true ⟨0, [], 0⟩
      ⟨[⟨[1, 2, 3], 7⟩], 51, false⟩ ⟨[1, 2, 3], 7⟩ []
      (fun _ => by decide) (fun hf _ => Bool.noConfusion hf)
      (by decide) (by decide) (by decide) (by decide)).2.1⟩

/-- C9 counterexample: when the zero-length `vorbis_analysis_wrote` of
the first NULL-data call fails (returns `OV_FALSE` = -1), `s->eof` is NOT
set — the error return at line 261 precedes `s->eof = 1` — so a second
NULL-data call issues the zero-length write again: the claim that the
first NULL-data call sets `s->eof` and that the write is never issued
twice is false at this input. -/
theorem c9_eof_once_cex :
    (oggvorbis_encode_frame 48 (fun g => g) 64 0 false ⟨-1, [], 0⟩
      ⟨[], 0, false⟩).wroteArgs = [0] ∧
    (oggvorbis_encode_frame 48 (fun g => g) 64 0 false ⟨-1, [], 0⟩
      ⟨[], 0, false⟩).state.eof = false ∧
    (oggvorbis_encode_frame 48 (fun g => g) 64 0 false ⟨-1, [], 0⟩
      (oggvorbis_encode_frame 48 (fun g => g) 64 0 false ⟨-1, [], 0⟩
        ⟨[], 0, false⟩).state).wroteArgs = [0] := by
  decide

/-- C9 (amended): a NULL-data call with `eof` clear issues the
zero-length write, and sets `s->eof` exactly when that write does not
fail; once `eof` is set, NULL-data calls issue no further
`vorbis_analysis_wrote`; the close path issues its own zero-length write
exactly when the DSP state was initialized. -/
theorem c9_eof_latch (szOp : Nat) (s2t : Int → Int) (frameSize : Nat)
    (buf_size : Int) (script : LibScript) (s : OggVorbisContext) :
    (s.eof = false → 0 ≤ script.wroteRet →
      (oggvorbis_encode_frame szOp s2t frameSize buf_size false script
        s).wroteArgs = [0] ∧
      (oggvorbis_encode_frame szOp s2t frameSize buf_size false script
        s).state.eof = true) ∧
    (s.eof = false → script.wroteRet < 0 →
      (oggvorbis_encode_frame szOp s2t frameSize buf_size false script
        s).wroteArgs = [0] ∧
      (oggvorbis_encode_frame szOp s2t frameSize buf_size false script
        s).state.eof = false) ∧
    (s.eof = true →
      (oggvorbis_encode_frame szOp s2t frameSize buf_size false script
        s).wroteArgs = [] ∧
      (oggvorbis_encode_frame szOp s2t frameSize buf_size false script
        s).state.eof = true) ∧
    (oggvorbis_encode_close_wroteArgs true = [0] ∧
     oggvorbis_encode_close_wroteArgs false = []) := by
  refine ⟨?_, ?_, ?_, by decide, by decide⟩
  · intro heof hww
    have hw : ¬ script.wroteRet < 0 := not_lt.mpr hww
    rw [encode_frame_retrieve_eq szOp s2t frameSize buf_size false script s
      (fun hf => Bool.noConfusion hf) (fun _ _ => hw)]
    rw [encodeRetrieve_wroteArgs, encodeRetrieve_state_eof]
    simp [heof]
  · intro heof hw
    simp [oggvorbis_encode_frame, heof, hw]
  · intro heof
    rw [encode_frame_retrieve_eq szOp s2t frameSize buf_size false script s
      (fun hf => Bool.noConfusion hf)
      (fun _ hf => absurd (heof ▸ hf) (by simp))]
    rw [encodeRetrieve_wroteArgs, encodeRetrieve_state_eof]
    simp [heof]

/-- Witness for C9 (amended): a successful first NULL-data call records
the zero-length write and latches `eof`. -/
theorem c9_eof_latch_witness :
    (oggvorbis_encode_frame 48 (fun g => g) 64 0 false ⟨0, [], 0⟩
      ⟨[], 0, false⟩).wroteArgs = [0] ∧
    (oggvorbis_encode_frame 48 (fun g => g) 64 0 false ⟨0, [], 0⟩
      ⟨[], 0, false⟩).state.eof = true :=
  (c9_eof_latch 48 (fun g => g) 64 0 ⟨0, [], 0⟩ ⟨[], 0, false⟩).1 rfl
    (by decide)

end LibVorbis
